import Mathlib

/-!
Shallow embedding of the THavalon game core (ThavalonWeb repository,
`game/` package: `game_constants.py`, `player.py`, `role.py`, the
`roles/` hierarchy, and `game.py`).

Modelling conventions, applied uniformly:

* Python dictionaries are embedded as insertion-ordered association lists
  (`List (κ × α)`); `d[k] = v` on a fresh key appends, on an existing key
  replaces in place (`aset`), `del d[k]` removes the entry (`aerase`),
  `d[k]` reads become `alookup`, which models `KeyError` by `none`.
* A Python method that can raise is embedded as a function returning the
  (possibly partially mutated, exactly as far as the Python code had
  mutated it when the exception was raised) state together with
  `Except String α`; the strings abbreviate the exception raised.
* Python object references held by the `Game` (the cached Maeve/Agravaine
  players) are embedded by the referenced player's session id; `Player`
  equality in the source compares `session_id` only, so this agrees with
  the source whenever the referenced player is registered in
  `session_id_to_player`, which the theorems assume where it matters.
* The sources of randomness (`random.shuffle`, `random.sample`,
  `random.choice`) are passed in as explicit parameters, mirroring the
  spec's requirement that randomness be swappable for deterministic
  testing.
* Python attribute lookup failures (`AttributeError`) are embedded
  explicitly where the source can raise them: `play_mission_card` calls
  `player.role.validate_mission_card`, a method defined only on the
  `Agravaine` class (the base `Role` defines `_validate_mission_card`),
  and `Game.use_ability` calls `use_ability` on a `Player` object, which
  has no such attribute.
-/

namespace Thavalon

/-- GamePhase enum from `game_constants.py` (lines 4-8): exactly
PROPOSAL, VOTE, MISSION and ASSASSINATION. There is no DONE member, so
the `GamePhase.DONE` attribute access in `play_mission_card`
(`game.py` line 511) raises `AttributeError` at runtime. -/
inductive GamePhase where
  | PROPOSAL
  | VOTE
  | MISSION
  | ASSASSINATION
  deriving DecidableEq, Repr, Inhabited

/-- LobbyStatus enum from `game_constants.py`. -/
inductive LobbyStatus where
  | JOINING
  | IN_PROGRESS
  | DONE
  deriving DecidableEq, Repr, Inhabited

/-- MissionCard enum from `game_constants.py`. -/
inductive MissionCard where
  | SUCCESS
  | FAIL
  | REVERSE
  deriving DecidableEq, Repr, Inhabited

/-- The `.name` attribute of a MissionCard member, used for the
`played_cards` listing in `play_mission_card`. -/
def MissionCard.pyName : MissionCard → String
  | .SUCCESS => "SUCCESS"
  | .FAIL => "FAIL"
  | .REVERSE => "REVERSE"

/-- MissionResult enum from `game_constants.py`. -/
inductive MissionResult where
  | PASS
  | FAIL
  deriving DecidableEq, Repr, Inhabited

/-- Team enum from `role.py` (GOOD = 0, EVIL = 1). -/
inductive Team where
  | GOOD
  | EVIL
  deriving DecidableEq, Repr, Inhabited

/-- The `.name` attribute of a Team member, used as the bucket key of
`get_all_player_role_info`. -/
def Team.pyName : Team → String
  | .GOOD => "GOOD"
  | .EVIL => "EVIL"

/-- The concrete Python class of a role instance, used to embed the
dynamic dispatch of the role methods (each `roles/*.py` file defines one
class). -/
inductive RoleClass where
  | Agravaine
  | Iseult
  | Lancelot
  | Lover
  | Maelegant
  | Maeve
  | Merlin
  | Mordred
  | Morgana
  | Nimue
  | Percival
  | Tristan
  deriving DecidableEq, Repr, Inhabited

/-- The projection of another `Player` that the `add_seen_player`
implementations inspect and that the seen-player list records: the
player's name and its role's name and team. The Python code appends the
`Player` object itself; only these fields of it are ever read back. -/
structure SeenPlayer where
  name : String
  role_name : String
  team : Team
  deriving DecidableEq, Repr, Inhabited

/-- A role instance: the union of the attribute sets of all concrete role
classes, tagged with the concrete class (`cls`) for method dispatch.
Fields not set by a class's `__init__` are kept at their defaults and
never read for that class. -/
structure Role where
  cls : RoleClass
  role_name : String
  team : Team
  is_reverser : Bool := false
  players_seen : List SeenPlayer := []
  /-- Maeve's transient obscure-vote flag (`maeve.py`). -/
  used_ability : Bool := false
  /-- Maeve's / Agravaine's ability-use counter. -/
  ability_count : Nat := 0
  /-- Evil-base flags (`evil.py`). -/
  saw_colgrevance : Bool := false
  saw_titania : Bool := false
  /-- Lover's counterpart name (`lover.py`); unused by other classes. -/
  lover_name : String := ""
  deriving DecidableEq, Repr, Inhabited

/-- Constructor `Tristan()` from `tristan.py`. -/
def mkTristan : Role :=
  { cls := .Tristan, role_name := "Tristan", team := .GOOD }

/-- Constructor `Iseult()` from `iseult.py`. -/
def mkIseult : Role :=
  { cls := .Iseult, role_name := "Iseult", team := .GOOD }

/-- Constructor `Lover(role_name, lover_name)` from `lover.py`. -/
def mkLover (role_name lover_name : String) : Role :=
  { cls := .Lover, role_name := role_name, team := .GOOD, lover_name := lover_name }

/-- Constructor `Merlin()` from `merlin.py`. -/
def mkMerlin : Role :=
  { cls := .Merlin, role_name := "Merlin", team := .GOOD }

/-- Constructor `Percival()` from `percival.py`. -/
def mkPercival : Role :=
  { cls := .Percival, role_name := "Percival", team := .GOOD }

/-- Constructor `Nimue()` from `nimue.py`. -/
def mkNimue : Role :=
  { cls := .Nimue, role_name := "Nimue", team := .GOOD }

/-- Constructor `Lancelot()` from `lancelot.py`. -/
def mkLancelot : Role :=
  { cls := .Lancelot, role_name := "Lancelot", team := .GOOD }

/-- Constructor `Maeve()` from `maeve.py` (takes no arguments; sets
`used_ability = False` and `ability_count = 0`, then calls
`Evil.__init__("Maeve", Team.EVIL)`, which sets the two saw-flags and
calls `Role.__init__`). -/
def mkMaeve : Role :=
  { cls := .Maeve, role_name := "Maeve", team := .EVIL }

/-- Role values of the remaining evil classes, as they would exist if
constructed; used to state theorems about game states that hold such
instances (the repository's tests build such states directly). The
as-written constructors of these classes raise `TypeError` because they
pass an `is_assassin` keyword that `Evil.__init__` does not accept; see
`constructEvilRole`. -/
def mkMordred : Role :=
  { cls := .Mordred, role_name := "Mordred", team := .EVIL }

/-- Maelegant role value (`maelegant.py` passes `is_reverser=True`). -/
def mkMaelegant : Role :=
  { cls := .Maelegant, role_name := "Maelegant", team := .EVIL, is_reverser := true }

/-- Morgana role value (`morgana.py`). -/
def mkMorgana : Role :=
  { cls := .Morgana, role_name := "Morgana", team := .EVIL }

/-- Agravaine role value (`agravaine.py`, with `ability_count = 0`). -/
def mkAgravaine : Role :=
  { cls := .Agravaine, role_name := "Agravaine", team := .EVIL }

/-- Embedding of `Role._validate_mission_card` (`role.py`, lines 32-42):
REVERSE only for reversers, FAIL only for team EVIL, SUCCESS always.
Note the leading underscore in the source name: `play_mission_card` calls
`validate_mission_card` (no underscore), so this base implementation is
never reached from the game; see `pyValidateMissionCard`. -/
def validate_mission_card_base (r : Role) (card : MissionCard) : Bool :=
  if card = .REVERSE then r.is_reverser
  else if card = .FAIL then r.team = .EVIL
  else true

/-- Embedding of `Agravaine.validate_mission_card` (`agravaine.py`):
Agravaine may only play FAIL. -/
def Agravaine.validate_mission_card (card : MissionCard) : Bool :=
  card = .FAIL

/-- Python attribute lookup of `validate_mission_card` on a role object,
as performed by `play_mission_card` (`game.py` line 448). Only the
`Agravaine` class defines a method of this name; every other class
inherits from `Role`, which defines only `_validate_mission_card`, so
the lookup raises `AttributeError` for them. -/
def pyValidateMissionCard (r : Role) (card : MissionCard) : Except String Bool :=
  match r.cls with
  | .Agravaine => .ok (Agravaine.validate_mission_card card)
  | _ => .error ("AttributeError: '" ++ r.role_name ++
      "' object has no attribute 'validate_mission_card'")

/-- Embedding of the per-class `add_seen_player` methods. Returns the
updated role together with the Python return value (`some b` for the
classes that return a bool, `none` for the lover classes, whose methods
return `None`). The lover classes (`tristan.py`, `iseult.py`,
`lover.py`) append any player when none has been recorded and raise
`ValueError` once one has; `evil.py` records evil non-Colgrevance
players and sets the saw-flags; `merlin.py`, `percival.py`, `nimue.py`,
`lancelot.py` filter as in the source. -/
def Role.add_seen_player (r : Role) (other : SeenPlayer) :
    Except String (Role × Option Bool) :=
  match r.cls with
  | .Merlin =>
      if (other.team = .EVIL ∧ other.role_name ≠ "Mordred") ∨
          other.role_name = "Lancelot" then
        .ok ({ r with players_seen := r.players_seen ++ [other] }, some true)
      else .ok (r, some false)
  | .Percival =>
      if other.role_name = "Morgana" ∨ other.role_name = "Merlin" then
        .ok ({ r with players_seen := r.players_seen ++ [other] }, some true)
      else .ok (r, some false)
  | .Nimue => .ok ({ r with players_seen := r.players_seen ++ [other] }, some true)
  | .Lancelot => .ok (r, some false)
  | .Tristan | .Iseult | .Lover =>
      if r.players_seen.length = 1 then
        .error (r.role_name ++ " can see at most one other person.")
      else .ok ({ r with players_seen := r.players_seen ++ [other] }, none)
  | .Maeve | .Mordred | .Morgana | .Agravaine | .Maelegant =>
      let r1 := if other.role_name = "Colgrevance" then
          { r with saw_colgrevance := true }
        else if other.role_name = "Titania" then
          { r with saw_titania := true }
        else r
      if other.team = .EVIL ∧ other.role_name ≠ "Colgrevance" then
        .ok ({ r1 with players_seen := r1.players_seen ++ [other] }, some true)
      else .ok (r1, some false)

/-- Embedding of the per-class `use_ability` methods on role objects.
Maeve (`maeve.py`) errors after 3 uses, otherwise sets the transient
flag and increments the counter; Agravaine's body is `pass`; every
other class raises `ValueError`. -/
def Role.use_ability (r : Role) : Except String Role :=
  match r.cls with
  | .Maeve =>
      if 3 ≤ r.ability_count then
        .error "You have already used your ability max 3 times."
      else .ok { r with used_ability := true, ability_count := r.ability_count + 1 }
  | .Agravaine => .ok r
  | _ => .error (r.role_name ++ " does not have an ability to use.")

/-- Player object from `player.py`; equality in the source compares
`session_id` only. -/
structure Player where
  session_id : String
  name : String
  proposal_vote : Option Bool := none
  mission_card : Option MissionCard := none
  role : Option Role := none
  deriving DecidableEq, Repr, Inhabited

/-- Constructor `Player(session_id, name)`. -/
def mkPlayer (session_id name : String) : Player :=
  { session_id := session_id, name := name }

/-- The seen-player projection handed to `add_seen_player`; reading
`other.role.role_name` raises `AttributeError` when the role is unset. -/
def Player.asSeen (p : Player) : Except String SeenPlayer :=
  match p.role with
  | none => .error "AttributeError: 'NoneType' object has no attribute 'role_name'"
  | some r => .ok { name := p.name, role_name := r.role_name, team := r.team }

section AssocList

variable {α : Type}

/-- Dictionary read `d[k]`; `none` models `KeyError`. -/
def alookup (l : List (String × α)) (k : String) : Option α :=
  match l with
  | [] => none
  | (k1, v) :: t => if k1 = k then some v else alookup t k

/-- Dictionary write `d[k] = v`: replaces the value of an existing key in
place, appends a fresh key at the end (Python dicts preserve insertion
order). -/
def aset (l : List (String × α)) (k : String) (v : α) : List (String × α) :=
  match l with
  | [] => [(k, v)]
  | (k1, v1) :: t => if k1 = k then (k1, v) :: t else (k1, v1) :: aset t k v

/-- Dictionary delete `del d[k]` (removes the first, and under key
uniqueness the only, entry of that key). -/
def aerase (l : List (String × α)) (k : String) : List (String × α) :=
  match l with
  | [] => []
  | (k1, v1) :: t => if k1 = k then t else (k1, v1) :: aerase t k

/-- Same association-list read for Nat keys (the mission-history
dictionaries are keyed by mission number). -/
def nlookup (l : List (Nat × α)) (k : Nat) : Option α :=
  match l with
  | [] => none
  | (k1, v) :: t => if k1 = k then some v else nlookup t k

/-- Same association-list write for Nat keys. -/
def nset (l : List (Nat × α)) (k : Nat) (v : α) : List (Nat × α) :=
  match l with
  | [] => [(k, v)]
  | (k1, v1) :: t => if k1 = k then (k1, v) :: t else (k1, v1) :: nset t k v

end AssocList

/-- The Game aggregate from `game.py` (`Game.__init__`), with Python
dictionaries as association lists and the cached Maeve/Agravaine player
references as session ids (see the module conventions above). The
`declarations` field of the source is never touched by any modelled
operation and is omitted. -/
structure Game where
  session_id_to_player : List (String × Player) := []
  player_name_to_session_id : List (String × String) := []
  lobby_status : LobbyStatus := .JOINING
  game_phase : GamePhase := .PROPOSAL
  mission_num_to_result : List (Nat × MissionResult) := []
  mission_players : List (Nat × List String) := []
  mission_cards : List (Nat × List MissionCard) := []
  last_vote_info : List (String × Nat) := []
  proposal_order_names : List String := []
  proposal_order_players : List Player := []
  proposer_index : Nat := 0
  proposer_id : String := ""
  current_proposal_num : Nat := 1
  max_num_proposers : Nat := 0
  current_proposals : List (List String) := []
  number_votes : Nat := 0
  mission_num : Nat := 0
  current_mission : List String := []
  current_mission_count : Nat := 0
  maeve_player : Option String := none
  agravaine_player : Option String := none
  deriving DecidableEq, Repr, Inhabited

/-- `Game.get_num_players`. -/
def Game.get_num_players (g : Game) : Nat :=
  g.session_id_to_player.length

/-- `Game.is_game_full` (`== _MAX_NUM_PLAYERS`, an equality test). -/
def Game.is_game_full (g : Game) : Bool :=
  g.get_num_players = 10

/-- `Game.get_player_names_in_game`. -/
def Game.get_player_names_in_game (g : Game) : List String :=
  g.session_id_to_player.map (fun q => q.2.name)

/-- `_MISSION_NUM_TO_PROPOSAL_SIZE` lookup table (`game.py` lines
20-31); `none` models the `KeyError` for a player count outside 1-10. -/
def missionNumToProposalSize (n : Nat) : Option (List Nat) :=
  match n with
  | 1 => some [1, 1, 1, 1, 1]
  | 2 => some [1, 1, 2, 2, 2]
  | 3 => some [1, 2, 3, 3, 3]
  | 4 => some [1, 2, 3, 2, 3]
  | 5 => some [2, 3, 2, 3, 3]
  | 6 => some [2, 3, 4, 3, 4]
  | 7 => some [2, 3, 3, 4, 4]
  | 8 => some [3, 4, 4, 5, 5]
  | 9 => some [3, 4, 4, 5, 5]
  | 10 => some [3, 4, 4, 5, 5]
  | _ => none

/-- `_GAME_SIZE_TO_GOOD_COUNT` lookup table (`game.py` lines 33-44). -/
def gameSizeToGoodCount (n : Nat) : Option Nat :=
  match n with
  | 1 => some 0
  | 2 => some 1
  | 3 => some 2
  | 4 => some 2
  | 5 => some 3
  | 6 => some 4
  | 7 => some 4
  | 8 => some 5
  | 9 => some 6
  | 10 => some 6
  | _ => none

/-- `_BASE_GOOD_ROLES` ++ `_GAME_SIZE_TO_GOOD_ROLES[n]` (`game.py` lines
46-59), as class tags. -/
def goodRolePool (n : Nat) : Option (List RoleClass) :=
  match n with
  | 2 | 3 | 4 | 5 | 6 =>
      some [.Iseult, .Merlin, .Percival, .Tristan, .Nimue]
  | 7 => some [.Iseult, .Merlin, .Percival, .Tristan, .Lancelot, .Nimue]
  | 8 | 9 | 10 => some [.Iseult, .Merlin, .Percival, .Tristan, .Lancelot]
  | _ => none

/-- `_BASE_EVIL_ROLES` ++ `_GAME_SIZE_TO_EVIL_ROLES[n]` (`game.py` lines
47, 61-71), as class tags. -/
def evilRolePool (n : Nat) : Option (List RoleClass) :=
  match n with
  | 2 | 3 | 4 | 5 | 6 => some [.Maeve, .Mordred, .Morgana]
  | 7 => some [.Maeve, .Mordred, .Morgana, .Maelegant]
  | 8 | 9 | 10 => some [.Maeve, .Mordred, .Morgana, .Agravaine, .Maelegant]
  | _ => none

/-- Construction of a good role by class tag (`good_role()` in
`start_game`): every good class has a zero-argument constructor. -/
def constructGoodRole : RoleClass → Role
  | .Iseult => mkIseult
  | .Merlin => mkMerlin
  | .Percival => mkPercival
  | .Tristan => mkTristan
  | .Nimue => mkNimue
  | .Lancelot => mkLancelot
  | .Lover => mkLover "" ""
  | .Agravaine => mkAgravaine
  | .Maelegant => mkMaelegant
  | .Maeve => mkMaeve
  | .Mordred => mkMordred
  | .Morgana => mkMorgana

/-- Construction `evil_role(is_assassin=...)` as performed by
`start_game` (`game.py` line 223). Every call raises `TypeError`:
`Maeve.__init__` accepts no `is_assassin` keyword, and the other evil
classes forward `is_assassin` to `Evil.__init__` (`evil.py`), whose
signature is `(self, role_name, team, is_reverser=False)` and has no
such parameter either. -/
def constructEvilRole (c : RoleClass) (is_assassin : Bool) :
    Except String Role :=
  match c, is_assassin with
  | .Maeve, _ =>
      .error "TypeError: Maeve.__init__() got an unexpected keyword argument 'is_assassin'"
  | _, _ =>
      .error "TypeError: Evil.__init__() got an unexpected keyword argument 'is_assassin'"

end Thavalon

namespace Thavalon

/-- Embedding of `Game.add_player` (`game.py` lines 136-150); returns the
updated name list. Every raise precedes any mutation. -/
def Game.add_player (g : Game) (session_id name : String) :
    Game × Except String (List String) :=
  if g.lobby_status ≠ .JOINING then
    (g, .error "Can only add player while in lobby.")
  else if g.is_game_full then
    (g, .error "Game currently has max 10 players, cannot add new player.")
  else if (alookup g.session_id_to_player session_id).isSome then
    (g, .error ("Session id " ++ session_id ++ " already in playermanager."))
  else if name ∈ g.session_id_to_player.map (fun q => q.2.name) then
    (g, .error ("Player with name " ++ name ++ " already in game."))
  else if (alookup g.player_name_to_session_id name).isSome then
    (g, .error ("Player with name " ++ name ++ " already in game."))
  else
    let g1 := { g with
      session_id_to_player := aset g.session_id_to_player session_id (mkPlayer session_id name),
      player_name_to_session_id := aset g.player_name_to_session_id name session_id }
    (g1, .ok g1.get_player_names_in_game)

/-- Embedding of `Game.remove_player` (`game.py` lines 160-168). The
source deletes the name mapping first; a missing name entry (impossible
under the map invariant) would raise `KeyError` before any mutation. -/
def Game.remove_player (g : Game) (session_id : String) :
    Game × Except String (List String) :=
  if g.lobby_status ≠ .JOINING then
    (g, .error "Can only remove player while in lobby.")
  else
    match alookup g.session_id_to_player session_id with
    | none => (g, .error ("Player with session id " ++ session_id ++ " does not exist"))
    | some p =>
      match alookup g.player_name_to_session_id p.name with
      | none => (g, .error "KeyError: player_name_to_session_id")
      | some _ =>
        let g1 := { g with
          player_name_to_session_id := aerase g.player_name_to_session_id p.name,
          session_id_to_player := aerase g.session_id_to_player session_id }
        (g1, .ok g1.get_player_names_in_game)

/-- Embedding of `Game.get_proposal_size` (`game.py` lines 243-244);
errors model the `KeyError`/`IndexError` of the double table lookup. -/
def Game.get_proposal_size (g : Game) : Except String Nat :=
  match missionNumToProposalSize g.get_num_players with
  | none => .error "KeyError: _MISSION_NUM_TO_PROPOSAL_SIZE"
  | some sizes =>
    match sizes.get? g.mission_num with
    | none => .error "IndexError: list index out of range"
    | some s => .ok s

/-- The dictionary returned by `Game.get_proposal_info`. -/
structure ProposalInfo where
  proposal_order : List String
  proposer_id : String
  proposer_index : Nat
  proposal_size : Nat
  max_num_proposers : Nat
  current_proposal_num : Nat
  deriving DecidableEq, Repr, Inhabited

/-- Embedding of `Game.get_proposal_info` (`game.py` lines 246-256). -/
def Game.get_proposal_info (g : Game) : Except String ProposalInfo :=
  if g.lobby_status ≠ .IN_PROGRESS then
    .error "Can only get proposal info when game in progress"
  else
    match g.get_proposal_size with
    | .error e => .error e
    | .ok size =>
      .ok { proposal_order := g.proposal_order_names,
            proposer_id := g.proposer_id,
            proposer_index := g.proposer_index,
            proposal_size := size,
            max_num_proposers := if g.mission_num = 0 then 2 else g.max_num_proposers,
            current_proposal_num := g.current_proposal_num }

/-- The dictionary returned by `Game.get_mission_info`. -/
structure MissionInfo where
  mission_players : List String
  mission_session_ids : List String
  deriving DecidableEq, Repr, Inhabited

/-- A list comprehension reading a dictionary at each element, stopping
at the first missing key (the comprehension's `KeyError`). -/
def alookupAll {α : Type} (l : List (String × α)) : List String → Option (List α)
  | [] => some []
  | n :: t =>
    match alookup l n with
    | none => none
    | some v =>
      match alookupAll l t with
      | none => none
      | some vs => some (v :: vs)

/-- Embedding of `Game.get_mission_info` (`game.py` lines 274-279); the
session-id comprehension raises `KeyError` on an unregistered name. -/
def Game.get_mission_info (g : Game) : Except String MissionInfo :=
  match alookupAll g.player_name_to_session_id g.current_mission with
  | none => .error "KeyError: player_name_to_session_id"
  | some sids => .ok { mission_players := g.current_mission, mission_session_ids := sids }

/-- Embedding of `Game.send_mission` (`game.py` lines 281-286): resets
the proposal counter to 1, selects the proposal at `proposal_idx` as the
current mission, clears the in-flight proposals, and returns the mission
info. -/
def Game.send_mission (g : Game) (proposal_idx : Nat) :
    Game × Except String MissionInfo :=
  let g1 := { g with current_proposal_num := 1 }
  match g1.current_proposals.get? proposal_idx with
  | none => (g1, .error "IndexError: list index out of range")
  | some names =>
    let g2 := { g1 with current_mission := names, current_proposals := [] }
    (g2, g2.get_mission_info)

/-- Embedding of the local `_advance_proposal` of `set_proposal`
(`game.py` lines 301-305): bumps the proposal number, clears the vote
counter, and advances the proposer circularly; reading the new
proposer from the order list can raise `IndexError` after the other
three mutations. -/
def Game.advance_proposal (g : Game) : Game × Except String Unit :=
  let g1 := { g with
    current_proposal_num := g.current_proposal_num + 1,
    number_votes := 0,
    proposer_index := (g.proposer_index + 1) % g.get_num_players }
  match g1.proposal_order_players.get? g1.proposer_index with
  | none => (g1, .error "IndexError: list index out of range")
  | some p => ({ g1 with proposer_id := p.session_id }, .ok ())

/-- The three dictionary shapes returned by `Game.set_proposal`. -/
inductive SetProposalOut where
  | firstOfTwo (game_phase : GamePhase) (proposals : List (List String))
      (proposal_info : ProposalInfo)
  | vote (game_phase : GamePhase) (proposals : List (List String))
  | mission (game_phase : GamePhase) (mission_info : MissionInfo)
  deriving DecidableEq, Repr, Inhabited

/-- Embedding of `Game.set_proposal` (`game.py` lines 288-334). Note
that the submitted proposal is appended to `current_proposals` before
the proposal-count consistency check, so that particular rejection
leaves the appended proposal behind. -/
def Game.set_proposal (g : Game) (player_names : List String) :
    Game × Except String SetProposalOut :=
  if g.lobby_status ≠ .IN_PROGRESS then
    (g, .error "Can only set proposal when game in progress")
  else if g.game_phase ≠ .PROPOSAL then
    (g, .error "Can only set proposals when game state is proposal")
  else
    match g.get_proposal_size with
    | .error e => (g, .error e)
    | .ok expected =>
      if player_names.length ≠ expected then
        (g, .error "Expected proposal of different size.")
      else
        match player_names.find? (fun n => !(g.proposal_order_names.contains n)) with
        | some n => (g, .error (n ++ " is not in the game."))
        | none =>
          let g1 := { g with current_proposals := g.current_proposals ++ [player_names] }
          if g1.current_proposals.length = 1 ∧ g1.mission_num = 0 then
            match g1.advance_proposal with
            | (g2, .error e) => (g2, .error e)
            | (g2, .ok _) =>
              match g2.get_proposal_info with
              | .error e => (g2, .error e)
              | .ok info =>
                (g2, .ok (.firstOfTwo g2.game_phase g2.current_proposals info))
          else if (g1.mission_num = 0 ∧ g1.current_proposals.length ≠ 2) ∨
              (g1.mission_num ≠ 0 ∧ g1.current_proposals.length ≠ 1) then
            (g1, .error "To enter voting phase, must be first mission with 2 proposals, or only have 1 proposal.")
          else if g1.mission_num ≠ 0 ∧ g1.current_proposal_num = g1.max_num_proposers then
            match g1.advance_proposal with
            | (g2, .error e) => (g2, .error e)
            | (g2, .ok _) =>
              let g3 := { g2 with game_phase := .MISSION }
              match g3.send_mission 0 with
              | (g4, .error e) => (g4, .error e)
              | (g4, .ok mi) => (g4, .ok (.mission g4.game_phase mi))
          else
            match g1.advance_proposal with
            | (g2, .error e) => (g2, .error e)
            | (g2, .ok _) =>
              let g3 := { g2 with game_phase := .VOTE }
              (g3, .ok (.vote g3.game_phase g3.current_proposals))

/-- Embedding of `Game.use_ability` (`game.py` lines 530-537). The
source calls `use_ability()` on the cached `Player` object (not on its
role); `Player` defines no such method, so the call raises
`AttributeError` whenever the acting player is the cached Maeve or
Agravaine player, and otherwise falls through and returns `None`. -/
def Game.use_ability (g : Game) (session_id : String) :
    Game × Except String Unit :=
  match alookup g.session_id_to_player session_id with
  | none => (g, .error "KeyError: session_id_to_player")
  | some player =>
    if g.maeve_player = some player.session_id then
      (g, .error "AttributeError: 'Player' object has no attribute 'use_ability'")
    else if g.agravaine_player = some player.session_id then
      (g, .error "AttributeError: 'Player' object has no attribute 'use_ability'")
    else (g, .ok ())

/-- The two role-name buckets returned by
`Game.get_all_player_role_info` (each a list of name/role-name pairs in
player-registration order). -/
structure RoleReveal where
  good : List (String × String)
  evil : List (String × String)
  deriving DecidableEq, Repr, Inhabited

/-- Loop of `Game.get_all_player_role_info` over the registered
players; a role-less player raises `AttributeError`. -/
def roleRevealLoop : List (String × Player) → RoleReveal → Except String RoleReveal
  | [], acc => .ok acc
  | (_, p) :: t, acc =>
    match p.role with
    | none => .error "AttributeError: 'NoneType' object has no attribute 'team'"
    | some r =>
      match r.team with
      | .GOOD => roleRevealLoop t { acc with good := acc.good ++ [(p.name, r.role_name)] }
      | .EVIL => roleRevealLoop t { acc with evil := acc.evil ++ [(p.name, r.role_name)] }

/-- Embedding of `Game.get_all_player_role_info` (`game.py` lines
539-547). -/
def Game.get_all_player_role_info (g : Game) : Except String RoleReveal :=
  roleRevealLoop g.session_id_to_player { good := [], evil := [] }

end Thavalon

namespace Thavalon

/-- The dictionary shapes returned by `Game.set_vote`. -/
inductive SetVoteOut where
  | echo (game_phase : GamePhase) (vote : Bool)
  | missionOut (game_phase : GamePhase) (proposal_vote_info : List (String × Nat))
      (mission_info : MissionInfo) (num_upvotes num_downvotes : Nat)
      (vote_maeved : Bool)
  | proposalOut (game_phase : GamePhase) (proposal_vote_info : List (String × Nat))
      (proposal_info : ProposalInfo) (num_upvotes num_downvotes : Nat)
      (vote_maeved : Bool)
  deriving DecidableEq, Repr, Inhabited

/-- The vote-collection loop of `set_vote` (`game.py` lines 369-373):
for each registered player, record `int(player.proposal_vote)` into
`last_vote_info` unless the obscure ability fired, then clear the vote.
Converting an unset vote raises `TypeError` before that player's vote is
cleared. -/
def voteInfoLoop (maeve_used : Bool) :
    List (String × Player) → Game → Game × Except String Unit
  | [], g => (g, .ok ())
  | (sid, p) :: t, g =>
    if maeve_used then
      let g1 := { g with
        session_id_to_player := aset g.session_id_to_player sid { p with proposal_vote := none } }
      voteInfoLoop maeve_used t g1
    else
      match p.proposal_vote with
      | none => (g, .error "TypeError: int() argument must not be NoneType")
      | some v =>
        let g1 := { g with
          last_vote_info := aset g.last_vote_info p.name (if v then 1 else 0),
          session_id_to_player := aset g.session_id_to_player sid { p with proposal_vote := none } }
        voteInfoLoop maeve_used t g1

/-- The resolution tail of `Game.set_vote` (`game.py` lines 369-411),
entered once every player has voted, after the upvote tally and the
Maeve check: builds the vote-info dictionary, clears the votes, and
branches on the tally. -/
def Game.set_vote_resolve (g : Game) (upvotes downvotes : Nat)
    (maeve_used : Bool) : Game × Except String SetVoteOut :=
  match voteInfoLoop maeve_used g.session_id_to_player g with
  | (g2, .error e) => (g2, .error e)
  | (g2, .ok _) =>
    if 2 * upvotes > g2.get_num_players then
      let g3 := { g2 with game_phase := .MISSION }
      match g3.send_mission 0 with
      | (g4, .error e) => (g4, .error e)
      | (g4, .ok mi) =>
        (g4, .ok (.missionOut g4.game_phase g4.last_vote_info mi upvotes downvotes maeve_used))
    else if g2.mission_num = 0 then
      let g3 := { g2 with game_phase := .MISSION }
      match g3.send_mission 1 with
      | (g4, .error e) => (g4, .error e)
      | (g4, .ok mi) =>
        (g4, .ok (.missionOut g4.game_phase g4.last_vote_info mi upvotes downvotes maeve_used))
    else
      let g3 := { g2 with current_proposals := [], game_phase := .PROPOSAL }
      match g3.get_proposal_info with
      | .error e => (g3, .error e)
      | .ok info =>
        (g3, .ok (.proposalOut g3.game_phase g3.last_vote_info info upvotes downvotes maeve_used))

/-- Embedding of `Game.set_vote` (`game.py` lines 336-411). Records the
vote and, once all players have voted, tallies upvotes (`if
player.proposal_vote:` counts exactly the `True` votes), consumes
Maeve's transient obscure flag, and resolves. -/
def Game.set_vote (g : Game) (session_id : String) (vote : Bool) :
    Game × Except String SetVoteOut :=
  if g.lobby_status ≠ .IN_PROGRESS then
    (g, .error "Can only set vote when game in progress")
  else if g.game_phase ≠ .VOTE then
    (g, .error "Can only set vote when game state is vote")
  else
    match alookup g.session_id_to_player session_id with
    | none => (g, .error "KeyError: session_id_to_player")
    | some player =>
      if player.proposal_vote ≠ none then
        (g, .error (player.name ++ " has already voted this round."))
      else
        let g1 := { g with
          session_id_to_player := aset g.session_id_to_player session_id
            { player with proposal_vote := some vote },
          number_votes := g.number_votes + 1 }
        if g1.number_votes ≠ g1.get_num_players then
          (g1, .ok (.echo g1.game_phase vote))
        else
          let upvotes :=
            g1.session_id_to_player.countP (fun q => q.2.proposal_vote == some true)
          let downvotes := g1.get_num_players - upvotes
          match g1.maeve_player with
          | none => g1.set_vote_resolve upvotes downvotes false
          | some msid =>
            match alookup g1.session_id_to_player msid with
            | none => (g1, .error "KeyError: cached Maeve reference not registered (reference model)")
            | some mp =>
              match mp.role with
              | none => (g1, .error "AttributeError: 'NoneType' object has no attribute 'used_ability'")
              | some mr =>
                if mr.used_ability then
                  let mp1 := { mp with role := some { mr with used_ability := false } }
                  let g2 := { g1 with
                    session_id_to_player := aset g1.session_id_to_player msid mp1 }
                  g2.set_vote_resolve upvotes downvotes true
                else g1.set_vote_resolve upvotes downvotes false

/-- The mission-result computation of `play_mission_card` (`game.py`
lines 467-484): two REVERSE cancel to zero; on the double-fail mission
(7 or more players, mission index 3) the mission fails exactly when one
REVERSE meets one FAIL or no REVERSE meets at least two FAILs; otherwise
any FAIL fails the mission unless cancelled by a single REVERSE, and a
lone REVERSE fails an otherwise passing mission. -/
def missionResultOf (num_players mission_num num_fails num_reverse0 : Nat) :
    MissionResult :=
  let num_reverse := if num_reverse0 = 2 then 0 else num_reverse0
  if 7 ≤ num_players ∧ mission_num = 3 then
    if (num_reverse = 1 ∧ num_fails = 1) ∨ (num_reverse = 0 ∧ 2 ≤ num_fails) then
      .FAIL
    else .PASS
  else if 0 < num_fails then
    if num_reverse = 1 then .PASS else .FAIL
  else if num_reverse = 1 then .FAIL else .PASS

/-- The player-object comprehension of `play_mission_card` (`game.py`
lines 461-462): dereference every mission participant name through the
name map and the session map, keeping the session key used. -/
def lookupMissionPlayers (g : Game) :
    List String → Except String (List (String × Player))
  | [] => .ok []
  | name :: t =>
    match alookup g.player_name_to_session_id name with
    | none => .error "KeyError: player_name_to_session_id"
    | some sid =>
      match alookup g.session_id_to_player sid with
      | none => .error "KeyError: session_id_to_player"
      | some p =>
        match lookupMissionPlayers g t with
        | .error e => .error e
        | .ok ps => .ok ((sid, p) :: ps)

/-- Unwrapping of a list of optional cards, `none` when any entry is
unset (the `card.name` comprehension's `AttributeError` on `None`). -/
def deOption : List (Option MissionCard) → Option (List MissionCard)
  | [] => some []
  | none :: _ => none
  | some c :: t =>
    match deOption t with
    | none => none
    | some cs => some (c :: cs)

/-- The card-clearing loop of `play_mission_card` (`game.py` lines
497-498): unset the mission card of every mission participant. -/
def clearMissionCards : List (String × Player) → Game → Game
  | [], g => g
  | (sid, p) :: t, g =>
    let g1 := { g with
      session_id_to_player := aset g.session_id_to_player sid { p with mission_card := none } }
    clearMissionCards t g1

/-- The dictionary shapes returned by `Game.play_mission_card`. The
third-fail branch of the source builds no dictionary: it crashes on
`GamePhase.DONE` (`game.py` line 511) before reaching its `return`, so
no constructor models it. -/
inductive PlayMissionCardOut where
  | echo (game_phase : GamePhase) (mission_card : MissionCard)
  | assassination (mission_result : MissionResult) (played_cards : List String)
      (mission_players : List String) (game_phase : GamePhase)
  | nextProposal (mission_result : MissionResult) (played_cards : List String)
      (game_phase : GamePhase) (mission_players : List String)
      (proposal_info : ProposalInfo)
  deriving DecidableEq, Repr, Inhabited

/-- The card-placement step of `play_mission_card` (`game.py` lines
450-451): record the card on the acting player and bump the played
count. -/
def Game.place_mission_card (g : Game) (session_id : String) (player : Player)
    (card : MissionCard) : Game :=
  { g with
    session_id_to_player := aset g.session_id_to_player session_id
      { player with mission_card := some card },
    current_mission_count := g.current_mission_count + 1 }

/-- The resolution tail of `play_mission_card` (`game.py` lines
460-528), entered once every participant has played: dereference the
participants, shuffle the played cards, list their names (an unset card
raises here, before anything is stored), compute the result, store the
mission history, advance the mission index, clear the cards, and branch
on the accumulated pass/fail counts. On the third failed mission the
source sets `lobby_status = LobbyStatus.DONE` (line 510) and then
evaluates `GamePhase.DONE` (line 511) — an enum member that does not
exist (`game_constants.py` lines 4-8) — so that branch raises
`AttributeError` with the phase left as it was and no payload
returned. -/
def Game.resolve_mission (g1 : Game)
    (shuffle : List (Option MissionCard) → List (Option MissionCard)) :
    Game × Except String PlayMissionCardOut :=
  match lookupMissionPlayers g1 g1.current_mission with
  | .error e => (g1, .error e)
  | .ok players_on_mission =>
    let played_cards := shuffle (players_on_mission.map (fun q => q.2.mission_card))
    match deOption played_cards with
    | none => (g1, .error "AttributeError: 'NoneType' object has no attribute 'name'")
    | some cards =>
      let played_cards_names := cards.map MissionCard.pyName
      let num_fails := cards.count .FAIL
      let num_reverse := cards.count .REVERSE
      let mission_result :=
        missionResultOf g1.get_num_players g1.mission_num num_fails num_reverse
      let g2 := { g1 with
        mission_players := nset g1.mission_players g1.mission_num g1.current_mission,
        mission_num_to_result := nset g1.mission_num_to_result g1.mission_num mission_result,
        mission_cards := nset g1.mission_cards g1.mission_num cards }
      let num_failed_missions := (g2.mission_num_to_result.map Prod.snd).count .FAIL
      let num_passed_missions := g2.mission_num_to_result.length - num_failed_missions
      let g3 := clearMissionCards players_on_mission
        { g2 with mission_num := g2.mission_num + 1 }
      let g4 := { g3 with current_mission_count := 0 }
      if num_passed_missions = 3 then
        let g5 := { g4 with game_phase := .ASSASSINATION }
        (g5, .ok (.assassination mission_result played_cards_names
          g5.current_mission g5.game_phase))
      else if num_failed_missions = 3 then
        let g5 := { g4 with lobby_status := .DONE }
        (g5, .error "AttributeError: DONE")
      else
        let g5 := { g4 with game_phase := .PROPOSAL }
        match g5.get_proposal_info with
        | .error e => (g5, .error e)
        | .ok info =>
          (g5, .ok (.nextProposal mission_result played_cards_names g5.game_phase
            g5.current_mission info))

/-- Embedding of `Game.play_mission_card` (`game.py` lines 437-528).
All rejections (wrong status or phase, unknown session id, not on the
mission, duplicate card, failed or missing card-legality method) happen
before any mutation; afterwards the card is placed and, when it was the
last one, the mission resolves. -/
def Game.play_mission_card (g : Game)
    (shuffle : List (Option MissionCard) → List (Option MissionCard))
    (session_id : String) (mission_card : MissionCard) :
    Game × Except String PlayMissionCardOut :=
  if g.lobby_status ≠ .IN_PROGRESS then
    (g, .error "Can only set vote when game in progress")
  else if g.game_phase ≠ .MISSION then
    (g, .error "Can only play mission cards when game state is mission")
  else
    match alookup g.session_id_to_player session_id with
    | none => (g, .error "KeyError: session_id_to_player")
    | some player =>
      if player.name ∉ g.current_mission then
        (g, .error (player.name ++ " not on current mission."))
      else if player.mission_card ≠ none then
        (g, .error (player.name ++ " has already played a mission card this round."))
      else
        match player.role with
        | none => (g, .error "AttributeError: 'NoneType' object has no attribute 'validate_mission_card'")
        | some role =>
          match pyValidateMissionCard role mission_card with
          | .error e => (g, .error e)
          | .ok valid =>
            if ¬ valid then
              (g, .error (player.name ++ " is not allowed to play the card."))
            else
              let g1 := g.place_mission_card session_id player mission_card
              if g1.current_mission_count ≠ g1.current_mission.length then
                (g1, .ok (.echo g1.game_phase mission_card))
              else g1.resolve_mission shuffle

end Thavalon

namespace Thavalon

/-- The `good_roles[idx]` comprehension of `start_game` (`game.py`
line 209), stopping at the first out-of-range index (`IndexError`). -/
def pickIndices (pool : List RoleClass) : List Nat → Option (List RoleClass)
  | [] => some []
  | idx :: t =>
    match pool.get? idx with
    | none => none
    | some c =>
      match pickIndices pool t with
      | none => none
      | some cs => some (c :: cs)

/-- The good-role assignment loop of `start_game` (`game.py` lines
212-213): zip the first players with the sampled good roles and
construct each role; players beyond the sampled roles are left as they
are (zip truncation). -/
def assignGoodRoles : List Player → List RoleClass → List Player
  | ps, [] => ps
  | [], _ => []
  | p :: pt, c :: ct =>
    { p with role := some (constructGoodRole c) } :: assignGoodRoles pt ct

/-- The evil-role assignment loop of `start_game` (`game.py` lines
216-223): for each remaining player zipped with a sampled evil-role
index, look the class up (an out-of-range index raises `IndexError`),
cache the Maeve/Agravaine player references, then construct the role
with `evil_role(is_assassin=...)` — which always raises `TypeError`
(see `constructEvilRole`), after the reference caching. Returns the
players processed so far together with the partially mutated game. -/
def evilAssignLoop (evil_roles : List RoleClass) (assassin_value : Nat) :
    List Player → List Nat → Game → (List Player × Game) × Except String Unit
  | ps, [], g => ((ps, g), .ok ())
  | [], _, g => (([], g), .ok ())
  | p :: pt, idx :: it, g =>
    match evil_roles.get? idx with
    | none => ((p :: pt, g), .error "IndexError: list index out of range")
    | some c =>
      let g1 := if c = .Maeve then { g with maeve_player := some p.session_id } else g
      let g2 := if c = .Agravaine then { g1 with agravaine_player := some p.session_id } else g1
      match constructEvilRole c (idx = assassin_value) with
      | .error e => ((p :: pt, g2), .error e)
      | .ok r =>
        let p1 := { p with role := some r }
        match evilAssignLoop evil_roles assassin_value pt it g2 with
        | ((ps2, g3), st) => ((p1 :: ps2, g3), st)

/-- One symmetric `add_seen_player` exchange of the setup loop
(`game.py` lines 226-229): skipped when the two players are equal
(session-id equality); otherwise each role is told about the other
player, in source order, with partial updates kept on error. -/
def addSeenPair (p q : Player) : (Player × Player) × Except String Unit :=
  if p.session_id = q.session_id then ((p, q), .ok ())
  else
    match p.role with
    | none => ((p, q), .error "AttributeError: 'NoneType' object has no attribute 'add_seen_player'")
    | some pr =>
      match q.asSeen with
      | .error e => ((p, q), .error e)
      | .ok qs =>
        match pr.add_seen_player qs with
        | .error e => ((p, q), .error e)
        | .ok (pr1, _) =>
          let p1 := { p with role := some pr1 }
          match q.role with
          | none => ((p1, q), .error "AttributeError: 'NoneType' object has no attribute 'add_seen_player'")
          | some qr =>
            match p1.asSeen with
            | .error e => ((p1, q), .error e)
            | .ok ps1 =>
              match qr.add_seen_player ps1 with
              | .error e => ((p1, q), .error e)
              | .ok (qr1, _) => ((p1, { q with role := some qr1 }), .ok ())

/-- Inner loop of the setup seen-exchange: the fixed player against each
later player in order. -/
def seenInner : Player → List Player → (Player × List Player) × Except String Unit
  | p, [] => ((p, []), .ok ())
  | p, q :: t =>
    match addSeenPair p q with
    | ((p1, q1), .error e) => ((p1, q1 :: t), .error e)
    | ((p1, q1), .ok _) =>
      match seenInner p1 t with
      | ((p2, t2), st) => ((p2, q1 :: t2), st)

/-- Outer loop of the setup seen-exchange (`for index, player in
enumerate(players): for other_player in players[index + 1:]`), with an
explicit step budget for structural recursion; `seenInner` preserves
the list length, so a budget equal to the list length runs the loop to
completion. -/
def seenOuterFuel : Nat → List Player → List Player × Except String Unit
  | 0, ps => (ps, .ok ())
  | _ + 1, [] => ([], .ok ())
  | n + 1, p :: t =>
    match seenInner p t with
    | ((p1, t1), .error e) => (p1 :: t1, .error e)
    | ((p1, t1), .ok _) =>
      match seenOuterFuel n t1 with
      | (t2, st) => (p1 :: t2, st)

/-- Outer loop of the setup seen-exchange, at its full budget. -/
def seenOuter (ps : List Player) : List Player × Except String Unit :=
  seenOuterFuel ps.length ps

/-- Write a list of (mutated) player objects back into the session map
at their session ids, modelling that the loop variables of `start_game`
alias the objects stored in `session_id_to_player`. -/
def writeBackPlayers : List Player → Game → Game
  | [], g => g
  | p :: t, g =>
    let g1 := { g with
      session_id_to_player := aset g.session_id_to_player p.session_id p }
    writeBackPlayers t g1

/-- Embedding of `Game.start_game` (`game.py` lines 171-231). The two
shuffles and the two `random.sample` results are parameters, as is the
position `random.choice` picks in the evil index list. The method
validates only the player count (there is no lobby-status guard), then
mutates the proposal order, proposer fields and `max_num_proposers`,
assigns the good roles, and enters the evil-role loop, whose
constructor calls raise `TypeError`; on such an error everything
mutated up to that point is kept, exactly as in the source. -/
def Game.start_game (g : Game) (shuffle1 shuffle2 : List Player → List Player)
    (good_role_indices evil_role_indices : List Nat) (assassin_pick : Nat) :
    Game × Except String Unit :=
  let num_players := g.get_num_players
  if num_players < 2 then
    (g, .error "Game must have at least 2 to be started")
  else if 10 < num_players then
    (g, .error "Game somehow has more than 10, unable to start")
  else
    let players := shuffle1 (g.session_id_to_player.map Prod.snd)
    let pop := shuffle2 players
    let g1 := { g with
      proposal_order_players := pop,
      proposal_order_names := pop.map Player.name,
      proposer_index := num_players - 2 }
    match pop.get? (pop.length - 2) with
    | none => (g1, .error "IndexError: list index out of range")
    | some next_to_last =>
      let g2 := { g1 with proposer_id := next_to_last.session_id }
      match gameSizeToGoodCount num_players with
      | none => (g2, .error "KeyError: _GAME_SIZE_TO_GOOD_COUNT")
      | some num_good =>
        let num_evil := num_players - num_good
        let g3 := { g2 with max_num_proposers := num_evil + 1 }
        match goodRolePool num_players with
        | none => (g3, .error "KeyError: _GAME_SIZE_TO_GOOD_ROLES")
        | some good_roles =>
          match evilRolePool num_players with
          | none => (g3, .error "KeyError: _GAME_SIZE_TO_EVIL_ROLES")
          | some evil_roles =>
            match evil_role_indices.get? assassin_pick with
            | none => (g3, .error "IndexError: random.choice on the evil index sample")
            | some assassin_value =>
              match pickIndices good_roles good_role_indices with
              | none => (g3, .error "IndexError: list index out of range")
              | some good_roles_in_game =>
                let players1 :=
                  assignGoodRoles (players.take num_good) good_roles_in_game
                    ++ players.drop num_good
                let g4 := writeBackPlayers (players1.take num_good) g3
                match evilAssignLoop evil_roles assassin_value
                    (players1.drop num_good) evil_role_indices g4 with
                | ((evilPs, g5), .error e) =>
                  ((writeBackPlayers evilPs g5), .error e)
                | ((evilPs, g5), .ok _) =>
                  let players2 := players1.take num_good ++ evilPs
                  let g6 := writeBackPlayers evilPs g5
                  match seenOuter players2 with
                  | (players3, .error e) => (writeBackPlayers players3 g6, .error e)
                  | (players3, .ok _) =>
                    let g7 := writeBackPlayers players3 g6
                    ({ g7 with lobby_status := .IN_PROGRESS }, .ok ())

end Thavalon

namespace Thavalon

/-- The two player maps are mutually inverse: the key of every session
entry is its player's `session_id`, every registered player's name maps
back to its session id, every name entry comes from a registered player
of that name, the two maps have equal size, and (implicit for Python
dictionaries) the keys of each map are unique. -/
def Inv (g : Game) : Prop :=
  (g.session_id_to_player.map Prod.fst).Nodup ∧
  (g.player_name_to_session_id.map Prod.fst).Nodup ∧
  (∀ q ∈ g.session_id_to_player, (q : String × Player).2.session_id = q.1) ∧
  (∀ q ∈ g.session_id_to_player,
    alookup g.player_name_to_session_id (q : String × Player).2.name = some q.1) ∧
  (∀ q ∈ g.player_name_to_session_id,
    (alookup g.session_id_to_player (q : String × String).2).map Player.name =
      some (q : String × String).1) ∧
  g.session_id_to_player.length = g.player_name_to_session_id.length

/-- One of the validation rejections of `set_proposal` (`game.py` lines
289-299): wrong lobby status, wrong phase, a failing proposal-size
lookup, a size mismatch, or a proposed name outside the proposal
order. These are exactly the checks the source runs before appending
the proposal. -/
def spReject (g : Game) (names : List String) : Prop :=
  g.lobby_status ≠ .IN_PROGRESS ∨ g.game_phase ≠ .PROPOSAL ∨
  (∃ e, g.get_proposal_size = .error e) ∨
  (∃ k, g.get_proposal_size = .ok k ∧ names.length ≠ k) ∨
  (∃ n ∈ names, g.proposal_order_names.contains n = false)

/-- One of the validation rejections of `set_vote` (`game.py` lines
337-344): wrong lobby status, wrong phase, unknown session id, or a
vote already recorded this round. -/
def svReject (g : Game) (sid : String) : Prop :=
  g.lobby_status ≠ .IN_PROGRESS ∨ g.game_phase ≠ .VOTE ∨
  alookup g.session_id_to_player sid = none ∨
  (∃ p, alookup g.session_id_to_player sid = some p ∧ p.proposal_vote ≠ none)

/-- One of the validation rejections of `play_mission_card` (`game.py`
lines 438-449): wrong lobby status, wrong phase, unknown session id,
player not on the mission, a card already played, a missing role, a
failing `validate_mission_card` attribute lookup, or a card the
legality method rejects. -/
def pmcReject (g : Game) (sid : String) (card : MissionCard) : Prop :=
  g.lobby_status ≠ .IN_PROGRESS ∨ g.game_phase ≠ .MISSION ∨
  alookup g.session_id_to_player sid = none ∨
  (∃ p, alookup g.session_id_to_player sid = some p ∧
    (p.name ∉ g.current_mission ∨ p.mission_card ≠ none ∨ p.role = none ∨
     (∃ ro e, p.role = some ro ∧ pyValidateMissionCard ro card = .error e) ∨
     (∃ ro, p.role = some ro ∧ pyValidateMissionCard ro card = .ok false)))

/-- A fresh player for the concrete witness games. -/
def wpl (i : Nat) : Player := mkPlayer (toString i) ("p" ++ toString i)

/-- Concrete seven-player game in MISSION phase on the double-fail
mission (mission index 3), two of the three mission cards already
played (the parameters), Agravaine about to play the last card. -/
def gC1 (c1 c2 : MissionCard) : Game :=
  { session_id_to_player := [
      ("1", { session_id := "1", name := "p1", role := some mkNimue, mission_card := some c1 }),
      ("2", { session_id := "2", name := "p2", role := some mkMerlin, mission_card := some c2 }),
      ("3", { session_id := "3", name := "p3", role := some mkAgravaine }),
      ("4", { session_id := "4", name := "p4", role := some mkPercival }),
      ("5", { session_id := "5", name := "p5", role := some mkIseult }),
      ("6", { session_id := "6", name := "p6", role := some mkTristan }),
      ("7", { session_id := "7", name := "p7", role := some mkMordred })],
    player_name_to_session_id := [("p1", "1"), ("p2", "2"), ("p3", "3"),
      ("p4", "4"), ("p5", "5"), ("p6", "6"), ("p7", "7")],
    lobby_status := .IN_PROGRESS,
    game_phase := .MISSION,
    mission_num := 3,
    mission_num_to_result := [(0, .PASS), (1, .FAIL), (2, .PASS)],
    current_mission := ["p1", "p2", "p3"],
    current_mission_count := 2,
    proposal_order_names := ["p1", "p2", "p3", "p4", "p5", "p6", "p7"],
    proposal_order_players := [wpl 1, wpl 2, wpl 3, wpl 4, wpl 5, wpl 6, wpl 7],
    max_num_proposers := 4 }

/-- Concrete two-player game in MISSION phase whose acting player holds
the constructible evil role Maeve (team EVIL) and is about to play FAIL
— legal according to the spec's card-legality rules. -/
def gC2 : Game :=
  { session_id_to_player := [
      ("1", { session_id := "1", name := "p1", role := some mkMaeve }),
      ("2", { session_id := "2", name := "p2", role := some mkMerlin })],
    player_name_to_session_id := [("p1", "1"), ("p2", "2")],
    lobby_status := .IN_PROGRESS,
    game_phase := .MISSION,
    current_mission := ["p1", "p2"] }

/-- Concrete seven-player game used to exercise the three phase
transitions of the resolution (C3 witness); mission index 3, results so
far chosen per scenario through the parameter. -/
def gC3 (hist : List (Nat × MissionResult)) (c1 c2 : MissionCard) : Game :=
  { gC1 c1 c2 with mission_num_to_result := hist }

/-- Concrete two-player joining lobby. -/
def gC4 : Game :=
  { session_id_to_player := [("1", wpl 1), ("2", wpl 2)],
    player_name_to_session_id := [("p1", "1"), ("p2", "2")] }

/-- Concrete game holding a Maeve player, with the cached Maeve
reference set exactly as `start_game` would set it. -/
def gC5 : Game :=
  { session_id_to_player := [
      ("1", { session_id := "1", name := "p1", role := some mkMaeve }),
      ("2", { session_id := "2", name := "p2", role := some mkMerlin })],
    player_name_to_session_id := [("p1", "1"), ("p2", "2")],
    lobby_status := .IN_PROGRESS,
    maeve_player := some "1" }

/-- Concrete already-started game (lobby IN_PROGRESS) on which a second
`start_game` call is attempted; `max_num_proposers` is set to a
recognizable value so the overwrite is visible. -/
def gC7 : Game :=
  { session_id_to_player := [("1", wpl 1), ("2", wpl 2)],
    player_name_to_session_id := [("p1", "1"), ("p2", "2")],
    lobby_status := .IN_PROGRESS,
    max_num_proposers := 5 }

/-- Concrete five-player game in PROPOSAL phase of mission 1 (evil
count 2, so the forced limit is 3), mirroring the repository's forced-
proposal test setup. -/
def gC8 (proposal_num : Nat) : Game :=
  { session_id_to_player := [("1", wpl 1), ("2", wpl 2), ("3", wpl 3),
      ("4", wpl 4), ("5", wpl 5)],
    player_name_to_session_id := [("p1", "1"), ("p2", "2"), ("p3", "3"),
      ("p4", "4"), ("p5", "5")],
    lobby_status := .IN_PROGRESS,
    game_phase := .PROPOSAL,
    proposal_order_names := ["p1", "p2", "p3", "p4", "p5"],
    proposal_order_players := [wpl 1, wpl 2, wpl 3, wpl 4, wpl 5],
    proposer_index := 0,
    proposer_id := "1",
    current_proposal_num := proposal_num,
    max_num_proposers := 3,
    mission_num := 1 }

/-- Concrete five-player game in PROPOSAL phase of mission 1 that
already holds an in-flight proposal (a state the Python attribute space
admits and the tests can build directly); submitting a valid proposal
is rejected by the consistency re-check, but only after the appended
proposal has mutated the list. -/
def gC9 : Game :=
  { gC8 1 with current_proposals := [["p1", "p2", "p3"]] }

/-- Concrete two-player joining lobby satisfying the map invariant,
used to witness the invariant-preservation theorem. -/
def gC10 : Game :=
  { session_id_to_player := [("1", wpl 1), ("2", wpl 2)],
    player_name_to_session_id := [("p1", "1"), ("p2", "2")] }

end Thavalon

namespace Thavalon

section AssocLemmas

variable {α : Type}

theorem alookup_eq_none_iff (l : List (String × α)) (k : String) :
    alookup l k = none ↔ k ∉ l.map Prod.fst := by
  induction l with
  | nil => simp [alookup]
  | cons h t ih =>
    obtain ⟨k1, v⟩ := h
    by_cases hk : k1 = k
    · subst hk
      simp [alookup]
    · have hk2 : ¬ k = k1 := fun h2 => hk h2.symm
      simp [alookup, hk, hk2, ih]

theorem alookup_mem {l : List (String × α)} {k : String} {v : α}
    (h : alookup l k = some v) : (k, v) ∈ l := by
  induction l with
  | nil => simp [alookup] at h
  | cons h1 t ih =>
    obtain ⟨k1, v1⟩ := h1
    by_cases hk : k1 = k
    · subst hk; simp [alookup] at h; simp [h]
    · simp [alookup, hk] at h
      exact List.mem_cons_of_mem _ (ih h)

theorem alookup_self_of_nodup {l : List (String × α)} {k : String} {v : α}
    (hnd : (l.map Prod.fst).Nodup) (hmem : (k, v) ∈ l) : alookup l k = some v := by
  induction l with
  | nil => simp at hmem
  | cons h1 t ih =>
    obtain ⟨k1, v1⟩ := h1
    simp only [List.map_cons, List.nodup_cons] at hnd
    rcases List.mem_cons.mp hmem with h | h
    · have hk : k1 = k := (Prod.ext_iff.mp h.symm).1
      have hv : v1 = v := (Prod.ext_iff.mp h.symm).2
      subst hk
      subst hv
      simp [alookup]
    · have hk : k1 ≠ k := by
        intro hkk
        subst hkk
        exact hnd.1 (List.mem_map.mpr ⟨(k1, v), h, rfl⟩)
      simp [alookup, hk, ih hnd.2 h]

theorem aset_fresh {l : List (String × α)} {k : String} (v : α)
    (h : alookup l k = none) : aset l k v = l ++ [(k, v)] := by
  induction l with
  | nil => simp [aset]
  | cons h1 t ih =>
    obtain ⟨k1, v1⟩ := h1
    by_cases hk : k1 = k
    · simp [alookup, hk] at h
    · simp [alookup, hk] at h
      simp [aset, hk, ih h]

theorem alookup_aset_self (l : List (String × α)) (k : String) (v : α) :
    alookup (aset l k v) k = some v := by
  induction l with
  | nil => simp [aset, alookup]
  | cons h1 t ih =>
    obtain ⟨k1, v1⟩ := h1
    by_cases hk : k1 = k <;> simp [aset, alookup, hk, ih]

theorem alookup_aset_ne (l : List (String × α)) {k k' : String} (v : α)
    (h : k' ≠ k) : alookup (aset l k v) k' = alookup l k' := by
  have hk2 : ¬ k = k' := fun hh => h hh.symm
  induction l with
  | nil => simp [aset, alookup, hk2]
  | cons h1 t ih =>
    obtain ⟨k1, v1⟩ := h1
    by_cases hk : k1 = k
    · subst hk
      simp [aset, alookup, hk2]
    · simp [aset, alookup, hk, ih]

theorem aset_map_eq {l : List (String × α)} {k : String} {v w : α}
    {β : Type} (f : String × α → β)
    (hl : alookup l k = some w) (hf : f (k, v) = f (k, w)) :
    (aset l k v).map f = l.map f := by
  induction l with
  | nil => simp [alookup] at hl
  | cons h1 t ih =>
    obtain ⟨k1, v1⟩ := h1
    by_cases hk : k1 = k
    · subst hk
      simp [alookup] at hl
      subst hl
      simp [aset, hf]
    · simp [alookup, hk] at hl
      simp [aset, hk, ih hl]

theorem aset_length_of_mem {l : List (String × α)} {k : String} {w : α} (v : α)
    (hl : alookup l k = some w) : (aset l k v).length = l.length := by
  induction l with
  | nil => simp [alookup] at hl
  | cons h1 t ih =>
    obtain ⟨k1, v1⟩ := h1
    by_cases hk : k1 = k
    · simp [aset, hk]
    · simp [alookup, hk] at hl
      simp [aset, hk, ih hl]

theorem aset_keys_of_mem {l : List (String × α)} {k : String} {w : α} (v : α)
    (hl : alookup l k = some w) :
    (aset l k v).map Prod.fst = l.map Prod.fst := by
  induction l with
  | nil => simp [alookup] at hl
  | cons h1 t ih =>
    obtain ⟨k1, v1⟩ := h1
    by_cases hk : k1 = k
    · simp [aset, hk]
    · simp [alookup, hk] at hl
      simp [aset, hk, ih hl]

theorem alookup_append_left {l l2 : List (String × α)} {k : String} {v : α}
    (h : alookup l k = some v) : alookup (l ++ l2) k = some v := by
  induction l with
  | nil => simp [alookup] at h
  | cons h1 t ih =>
    obtain ⟨k1, v1⟩ := h1
    by_cases hk : k1 = k <;> simp_all [alookup, hk]

theorem alookup_append_right {l l2 : List (String × α)} {k : String}
    (h : alookup l k = none) : alookup (l ++ l2) k = alookup l2 k := by
  induction l with
  | nil => simp [alookup]
  | cons h1 t ih =>
    obtain ⟨k1, v1⟩ := h1
    by_cases hk : k1 = k <;> simp_all [alookup, hk]

theorem alookup_aerase_ne (l : List (String × α)) {k k' : String}
    (h : k' ≠ k) : alookup (aerase l k) k' = alookup l k' := by
  have hk2 : ¬ k = k' := fun hh => h hh.symm
  induction l with
  | nil => simp [aerase]
  | cons h1 t ih =>
    obtain ⟨k1, v1⟩ := h1
    by_cases hk : k1 = k
    · subst hk
      simp [aerase, alookup, hk2]
    · simp [aerase, alookup, hk, ih]

theorem aerase_sublist (l : List (String × α)) (k : String) :
    (aerase l k).Sublist l := by
  induction l with
  | nil => simp [aerase]
  | cons h1 t ih =>
    obtain ⟨k1, v1⟩ := h1
    by_cases hk : k1 = k
    · simp [aerase, hk]
    · simp [aerase, hk]
      exact ih

theorem aerase_length {l : List (String × α)} {k : String} {v : α}
    (h : alookup l k = some v) : (aerase l k).length + 1 = l.length := by
  induction l with
  | nil => simp [alookup] at h
  | cons h1 t ih =>
    obtain ⟨k1, v1⟩ := h1
    by_cases hk : k1 = k
    · simp [aerase, hk]
    · simp [alookup, hk] at h
      simp [aerase, hk, ih h]

theorem mem_aerase_of_nodup {l : List (String × α)} {k : String} {q : String × α}
    (hnd : (l.map Prod.fst).Nodup) (h : q ∈ aerase l k) : q ∈ l ∧ q.1 ≠ k := by
  induction l with
  | nil => simp [aerase] at h
  | cons h1 t ih =>
    obtain ⟨k1, v1⟩ := h1
    simp only [List.map_cons, List.nodup_cons] at hnd
    by_cases hk : k1 = k
    · subst hk
      simp only [aerase, if_pos rfl] at h
      refine ⟨List.mem_cons_of_mem _ h, ?_⟩
      intro hq
      exact hnd.1 (List.mem_map.mpr ⟨q, h, hq⟩)
    · simp only [aerase, if_neg hk] at h
      rcases List.mem_cons.mp h with h2 | h2
      · subst h2
        exact ⟨List.mem_cons_self _ _, hk⟩
      · obtain ⟨hm, hne⟩ := ih hnd.2 h2
        exact ⟨List.mem_cons_of_mem _ hm, hne⟩

theorem nlookup_nset_self (l : List (Nat × α)) (k : Nat) (v : α) :
    nlookup (nset l k v) k = some v := by
  induction l with
  | nil => simp [nset, nlookup]
  | cons h1 t ih =>
    obtain ⟨k1, v1⟩ := h1
    by_cases hk : k1 = k <;> simp [nset, nlookup, hk, ih]

theorem nset_map_fst_of_not_mem {l : List (Nat × α)} {k : Nat} (v : α)
    (h : k ∉ l.map Prod.fst) :
    (nset l k v).map Prod.fst = l.map Prod.fst ++ [k] := by
  induction l with
  | nil => simp [nset]
  | cons h1 t ih =>
    obtain ⟨k1, v1⟩ := h1
    simp only [List.map_cons, List.mem_cons] at h
    push_neg at h
    have hk2 : ¬ k1 = k := fun hh => h.1 hh.symm
    simp [nset, hk2, ih h.2]

theorem nset_length_of_not_mem {l : List (Nat × α)} {k : Nat} (v : α)
    (h : k ∉ l.map Prod.fst) : (nset l k v).length = l.length + 1 := by
  have := nset_map_fst_of_not_mem (l := l) (k := k) v h
  have h2 : ((nset l k v).map Prod.fst).length = (l.map Prod.fst ++ [k]).length :=
    congrArg List.length this
  simpa using h2

end AssocLemmas

end Thavalon

namespace Thavalon

/-- C2 (code bug): a Maeve-rolled player (team EVIL) submitting FAIL —
legal under the spec's card-legality rules, as witnessed by the base
implementation `_validate_mission_card` — is nevertheless rejected,
because `play_mission_card` calls `validate_mission_card`, an attribute
only the Agravaine class defines, so the lookup raises
`AttributeError`; the state is unchanged. The repository's own test
(`test_play_mission_card_twice`) expects an evil player's FAIL to be
accepted. -/
theorem C2_validate_mission_card_attribute_error :
    (gC2.play_mission_card id "1" MissionCard.FAIL).2 =
      .error "AttributeError: 'Maeve' object has no attribute 'validate_mission_card'" ∧
    (gC2.play_mission_card id "1" MissionCard.FAIL).1 = gC2 ∧
    alookup gC2.session_id_to_player "1" =
      some { session_id := "1", name := "p1", role := some mkMaeve } ∧
    mkMaeve.team = Team.EVIL ∧
    validate_mission_card_base mkMaeve MissionCard.FAIL = true :=
  ⟨rfl, rfl, rfl, rfl, rfl⟩

/-- C4 (code bug): `start_game` on a two-player lobby with the sample
drawing Tristan as the single good role proceeds to assign Tristan (so
the lover pairing the spec requires in step 4 does not exist — no
Iseult is assigned anywhere) and then crashes with `TypeError` when it
constructs the evil role with the `is_assassin` keyword, which no evil
constructor accepts; the lobby never reaches IN_PROGRESS, so no
successful `start_game` exists. -/
theorem C4_start_game_role_assignment :
    (gC4.start_game id id [3] [0] 0).2 =
      .error "TypeError: Maeve.__init__() got an unexpected keyword argument 'is_assassin'" ∧
    (gC4.start_game id id [3] [0] 0).1.lobby_status = LobbyStatus.JOINING ∧
    alookup (gC4.start_game id id [3] [0] 0).1.session_id_to_player "1" =
      some { session_id := "1", name := "p1", role := some mkTristan } ∧
    alookup (gC4.start_game id id [3] [0] 0).1.session_id_to_player "2" =
      some (wpl 2) ∧
    (wpl 2).role = none :=
  ⟨rfl, rfl, rfl, rfl, rfl⟩

/-- C5 (code bug): on a game that holds a Maeve player,
`Game.use_ability` on Maeve's identity raises `AttributeError` with the
state unchanged — the source calls `use_ability()` on the cached
`Player` object instead of on its role — although the Maeve role's own
`use_ability` behaves exactly as the claim describes: it sets the
obscure-vote flag and increments the counter, and errors once the
3-use limit is reached. -/
theorem C5_use_ability_attribute_error :
    gC5.use_ability "1" =
      (gC5, .error "AttributeError: 'Player' object has no attribute 'use_ability'") ∧
    mkMaeve.use_ability = .ok { mkMaeve with used_ability := true, ability_count := 1 } ∧
    ({ mkMaeve with ability_count := 3 } : Role).use_ability =
      .error "You have already used your ability max 3 times." :=
  ⟨rfl, rfl, rfl⟩

/-- C7 (code bug): `start_game` has no lobby-status guard: called on a
game whose lobby status is already IN_PROGRESS it is not rejected with
the state unchanged — it re-runs setup, overwriting `max_num_proposers`
(5 before the call, 2 after) and the proposal-order fields before the
evil-role construction crashes. -/
theorem C7_start_game_not_guarded_by_lobby_status :
    gC7.lobby_status ≠ LobbyStatus.JOINING ∧
    gC7.max_num_proposers = 5 ∧
    (gC7.start_game id id [0] [0] 0).1.max_num_proposers = 2 ∧
    (gC7.start_game id id [0] [0] 0).1 ≠ gC7 := by
  exact ⟨by decide, rfl, rfl, by decide⟩

/-- C1 counterexample: on the double-fail mission (7 players, mission
index 3) with exactly one FAIL and one REVERSE among the played cards,
the resolution stored by `play_mission_card` is FAIL, not the PASS the
claim asserts ("the reverse cancels the fail"). -/
theorem C1_counterexample_one_fail_one_reverse :
    7 ≤ (gC1 .REVERSE .SUCCESS).get_num_players ∧
    (gC1 .REVERSE .SUCCESS).mission_num = 3 ∧
    (nlookup ((gC1 .REVERSE .SUCCESS).play_mission_card id "3" .FAIL).1.mission_cards 3).getD []
      = [.REVERSE, .SUCCESS, .FAIL] ∧
    ((nlookup ((gC1 .REVERSE .SUCCESS).play_mission_card id "3" .FAIL).1.mission_cards 3).getD []).count .FAIL = 1 ∧
    ((nlookup ((gC1 .REVERSE .SUCCESS).play_mission_card id "3" .FAIL).1.mission_cards 3).getD []).count .REVERSE = 1 ∧
    nlookup ((gC1 .REVERSE .SUCCESS).play_mission_card id "3" .FAIL).1.mission_num_to_result 3
      = some MissionResult.FAIL := by
  exact ⟨by decide, rfl, rfl, rfl, rfl, rfl⟩

/-- C6 counterexample: Tristan records the first player he is told
about even though that player's role ("Merlin") is not his named
counterpart ("Iseult"), refuting the claimed "records if and only if
counterpart" characterisation. -/
theorem C6_counterexample_tristan_records_merlin :
    mkTristan.add_seen_player { name := "M", role_name := "Merlin", team := Team.GOOD } =
      .ok ({ mkTristan with
        players_seen := [{ name := "M", role_name := "Merlin", team := Team.GOOD }] }, none) ∧
    "Merlin" ≠ "Iseult" := by
  exact ⟨rfl, by decide⟩

/-- C6 (amended): each lover role (Tristan, Iseult, generic Lover)
records the first player it is told about regardless of that player's
role, and rejects with an error any attempt to record a second player
once one has been recorded. -/
theorem C6_lover_add_seen_player (r : Role) (other : SeenPlayer)
    (hcls : r.cls = RoleClass.Tristan ∨ r.cls = RoleClass.Iseult ∨ r.cls = RoleClass.Lover) :
    (r.players_seen = [] →
      r.add_seen_player other = .ok ({ r with players_seen := [other] }, none)) ∧
    (r.players_seen.length = 1 →
      r.add_seen_player other =
        .error (r.role_name ++ " can see at most one other person.")) := by
  obtain ⟨cls, rn, tm, rev, seen, ua, ac, sc, st, ln⟩ := r
  constructor
  · intro hseen
    simp only at hseen
    subst hseen
    rcases hcls with h | h | h <;>
      (simp only at h; subst h; simp [Role.add_seen_player])
  · intro hlen
    simp only at hlen
    rcases hcls with h | h | h <;>
      (simp only at h; subst h; simp [Role.add_seen_player, hlen])

/-- C6 witness: Tristan records a first (non-counterpart) player and
rejects a second. -/
theorem C6_lover_add_seen_player_witness :
    mkTristan.add_seen_player { name := "M", role_name := "Merlin", team := Team.GOOD } =
      .ok ({ mkTristan with
        players_seen := [{ name := "M", role_name := "Merlin", team := Team.GOOD }] }, none) ∧
    ({ mkTristan with
        players_seen := [{ name := "M", role_name := "Merlin", team := Team.GOOD }] } : Role).add_seen_player
        { name := "X", role_name := "Percival", team := Team.GOOD } =
      .error "Tristan can see at most one other person." := by
  constructor
  · exact (C6_lover_add_seen_player mkTristan
      { name := "M", role_name := "Merlin", team := Team.GOOD } (Or.inl rfl)).1 rfl
  · have h := (C6_lover_add_seen_player
      ({ mkTristan with
        players_seen := [{ name := "M", role_name := "Merlin", team := Team.GOOD }] })
      { name := "X", role_name := "Percival", team := Team.GOOD } (Or.inl rfl)).2 rfl
    rw [h]
    rfl

/-- C9 counterexample: in a PROPOSAL-phase state of mission 1 that
already holds an in-flight proposal, a valid `set_proposal` call is
rejected ("To enter voting phase ...") yet leaves the submitted
proposal appended to `current_proposals`, so the state after the
rejected call differs from the state before it. -/
theorem C9_counterexample_set_proposal_mutates_on_reject :
    (gC9.set_proposal ["p1", "p2", "p3"]).2 =
      .error "To enter voting phase, must be first mission with 2 proposals, or only have 1 proposal." ∧
    (gC9.set_proposal ["p1", "p2", "p3"]).1.current_proposals =
      [["p1", "p2", "p3"], ["p1", "p2", "p3"]] ∧
    gC9.current_proposals = [["p1", "p2", "p3"]] ∧
    (gC9.set_proposal ["p1", "p2", "p3"]).1 ≠ gC9 := by
  exact ⟨rfl, rfl, rfl, by decide⟩

end Thavalon

namespace Thavalon

theorem alookupAll_isSome {α : Type} (l : List (String × α)) (names : List String)
    (h : ∀ n ∈ names, (alookup l n).isSome) :
    ∃ vs, alookupAll l names = some vs := by
  induction names with
  | nil => exact ⟨[], rfl⟩
  | cons n t ih =>
    obtain ⟨v, hv⟩ := Option.isSome_iff_exists.mp (h n (List.mem_cons_self _ _))
    obtain ⟨vs, hvs⟩ := ih (fun m hm => h m (List.mem_cons_of_mem _ hm))
    exact ⟨v :: vs, by simp [alookupAll, hv, hvs]⟩

/-- C8 (confirmed): on a mission index at least 1 with a valid proposal
submitted from a consistent PROPOSAL-phase state whose forced limit
`max_num_proposers` equals evil count + 1, reaching the limit
(`current_proposal_num = max_num_proposers`) sends the proposal
straight to MISSION at proposal index 0 with no VOTE phase and resets
the proposal counter to 1, while any proposal submitted before the
limit transitions to VOTE instead. -/
theorem C8_forced_proposal_boundary (g : Game) (names : List String) (gc : Nat)
    (hlobby : g.lobby_status = .IN_PROGRESS)
    (hphase : g.game_phase = .PROPOSAL)
    (hmn : g.mission_num ≠ 0)
    (hprop : g.current_proposals = [])
    (hsize : g.get_proposal_size = .ok names.length)
    (hnames : ∀ n ∈ names, g.proposal_order_names.contains n = true)
    (hplen : g.proposal_order_players.length = g.get_num_players)
    (hpos : 1 ≤ g.get_num_players)
    (hlk : ∀ n ∈ names, (alookup g.player_name_to_session_id n).isSome)
    (hgc : gameSizeToGoodCount g.get_num_players = some gc)
    (hmax : g.max_num_proposers = (g.get_num_players - gc) + 1) :
    (g.current_proposal_num = g.max_num_proposers →
      (g.set_proposal names).1.game_phase = GamePhase.MISSION ∧
      (g.set_proposal names).1.current_proposal_num = 1 ∧
      (g.set_proposal names).1.current_mission = names ∧
      ∃ mi, (g.set_proposal names).2 = .ok (SetProposalOut.mission GamePhase.MISSION mi) ∧
        mi.mission_players = names) ∧
    (g.current_proposal_num < g.max_num_proposers →
      (g.set_proposal names).1.game_phase = GamePhase.VOTE ∧
      (g.set_proposal names).2 = .ok (SetProposalOut.vote GamePhase.VOTE [names])) := by
  have h1 : ¬ (g.lobby_status ≠ LobbyStatus.IN_PROGRESS) := by simp [hlobby]
  have h2 : ¬ (g.game_phase ≠ GamePhase.PROPOSAL) := by simp [hphase]
  have hfind : names.find? (fun n => !(g.proposal_order_names.contains n)) = none := by
    apply List.find?_eq_none.mpr
    intro n hn
    simpa using hnames n hn
  have hidx : (g.proposer_index + 1) % g.session_id_to_player.length <
      g.proposal_order_players.length := by
    rw [hplen]
    exact Nat.mod_lt _ (Nat.lt_of_lt_of_le Nat.zero_lt_one hpos)
  have hpp := List.get?_eq_get hidx
  obtain ⟨sids, hsids⟩ := alookupAll_isSome g.player_name_to_session_id names hlk
  constructor
  · intro hnum
    simp only [Game.set_proposal, if_neg h1, if_neg h2, hsize, hfind, hprop,
      Game.advance_proposal, Game.send_mission, Game.get_mission_info, Game.get_num_players]
    simp only [List.nil_append, List.length_cons, List.length_nil, ne_eq, not_true_eq_false,
      if_false, hmn, hnum, not_false_eq_true, and_true, and_false, false_and, true_and,
      or_false, false_or, if_true]
    rw [hpp]
    simp only [hsids, List.get?_cons_zero]
    exact ⟨trivial, trivial, trivial, ⟨_, rfl, rfl⟩⟩
  · intro hlt
    have hne : ¬ (g.current_proposal_num = g.max_num_proposers) := Nat.ne_of_lt hlt
    simp only [Game.set_proposal, if_neg h1, if_neg h2, hsize, hfind, hprop,
      Game.advance_proposal, Game.get_num_players]
    simp only [List.nil_append, List.length_cons, List.length_nil, ne_eq, not_true_eq_false,
      if_false, hmn, hne, not_false_eq_true, and_true, and_false, false_and, true_and,
      or_false, false_or, if_true]
    rw [hpp]
    exact ⟨rfl, rfl⟩

/-- C8 witness: in the concrete five-player mission-1 game (evil count
2, forced limit 3), a valid proposal at attempt 3 goes straight to
MISSION with the counter reset, and the same proposal at attempt 1
goes to VOTE. -/
theorem C8_forced_proposal_boundary_witness :
    ((gC8 3).set_proposal ["p1", "p2", "p3"]).1.game_phase = GamePhase.MISSION ∧
    ((gC8 3).set_proposal ["p1", "p2", "p3"]).1.current_proposal_num = 1 ∧
    ((gC8 3).set_proposal ["p1", "p2", "p3"]).1.current_mission = ["p1", "p2", "p3"] ∧
    ((gC8 1).set_proposal ["p1", "p2", "p3"]).1.game_phase = GamePhase.VOTE := by
  have hF := (C8_forced_proposal_boundary (gC8 3) ["p1", "p2", "p3"] 3 rfl rfl
    (by decide) rfl rfl (by decide) rfl (by decide) (by decide) rfl rfl).1 rfl
  have hV := (C8_forced_proposal_boundary (gC8 1) ["p1", "p2", "p3"] 3 rfl rfl
    (by decide) rfl rfl (by decide) rfl (by decide) (by decide) rfl rfl).2 (by decide)
  exact ⟨hF.1, hF.2.1, hF.2.2.1, hV.1⟩

end Thavalon

namespace Thavalon

theorem perm_count {l1 l2 : List (Option MissionCard)} (h : l1.Perm l2)
    (a : Option MissionCard) : l1.count a = l2.count a := by
  have := h.countP_eq (fun x => x == a)
  simpa [List.count] using this

theorem deOption_of_no_none (l : List (Option MissionCard)) (h : none ∉ l) :
    ∃ cs, deOption l = some cs ∧ ∀ c, cs.count c = l.count (some c) := by
  induction l with
  | nil => exact ⟨[], rfl, by simp⟩
  | cons o t ih =>
    match o with
    | none => simp at h
    | some c0 =>
      obtain ⟨cs, hcs, hcount⟩ := ih (fun hm => h (List.mem_cons_of_mem _ hm))
      refine ⟨c0 :: cs, by simp [deOption, hcs], ?_⟩
      intro c
      by_cases hc : c0 = c
      · subst hc
        simp only [List.count_cons, if_pos rfl]
        simp [hcount c0]
      · have hc2 : ¬ (some c0 = some c) := by simp [hc]
        simp [List.count_cons, hc, hc2, hcount c]

theorem clearMissionCards_shape (ps : List (String × Player)) (g : Game) :
    ∃ m, clearMissionCards ps g = { g with session_id_to_player := m } := by
  induction ps generalizing g with
  | nil => exact ⟨g.session_id_to_player, rfl⟩
  | cons q t ih =>
    obtain ⟨sid, p⟩ := q
    obtain ⟨m, hm⟩ := ih { g with
      session_id_to_player := aset g.session_id_to_player sid { p with mission_card := none } }
    exact ⟨m, by simp [clearMissionCards, hm]⟩

theorem clearMissionCards_mnr (ps : List (String × Player)) (g : Game) :
    (clearMissionCards ps g).mission_num_to_result = g.mission_num_to_result := by
  obtain ⟨m, hm⟩ := clearMissionCards_shape ps g
  rw [hm]

/-- When every guard of `play_mission_card` passes and the acting card
is the last one of the mission, the call is the placement step followed
by the resolution tail. -/
theorem play_mission_card_complete (g : Game)
    (shuffle : List (Option MissionCard) → List (Option MissionCard))
    (sid : String) (card : MissionCard) (p : Player) (ro : Role)
    (hlobby : g.lobby_status = .IN_PROGRESS)
    (hphase : g.game_phase = .MISSION)
    (hp : alookup g.session_id_to_player sid = some p)
    (hmem : p.name ∈ g.current_mission)
    (hcard : p.mission_card = none)
    (hro : p.role = some ro)
    (hval : pyValidateMissionCard ro card = .ok true)
    (hlast : g.current_mission_count + 1 = g.current_mission.length) :
    g.play_mission_card shuffle sid card =
      (g.place_mission_card sid p card).resolve_mission shuffle := by
  have h1 : ¬ (g.lobby_status ≠ LobbyStatus.IN_PROGRESS) := by simp [hlobby]
  have h2 : ¬ (g.game_phase ≠ GamePhase.MISSION) := by simp [hphase]
  have h3 : ¬ (p.name ∉ g.current_mission) := by simp [hmem]
  have h4 : ¬ (p.mission_card ≠ none) := by simp [hcard]
  have h5 : ¬ ((g.place_mission_card sid p card).current_mission_count ≠
      (g.place_mission_card sid p card).current_mission.length) := by
    simp only [Game.place_mission_card]
    simp [hlast]
  simp only [Game.play_mission_card, if_neg h1, if_neg h2, hp, if_neg h3, if_neg h4,
    hro, hval, not_true_eq_false, if_false, ite_false, if_neg h5]

/-- The resolution tail stores exactly the mission result computed by
the `missionResultOf` rule at the current mission index. -/
theorem resolve_mission_result (g1 : Game)
    (shuffle : List (Option MissionCard) → List (Option MissionCard))
    (ps : List (String × Player)) (cs : List (Option MissionCard)) (cards : List MissionCard)
    (hps : lookupMissionPlayers g1 g1.current_mission = .ok ps)
    (hcs : ps.map (fun q => q.2.mission_card) = cs)
    (hcards : deOption (shuffle cs) = some cards) :
    (g1.resolve_mission shuffle).1.mission_num_to_result =
      nset g1.mission_num_to_result g1.mission_num
        (missionResultOf g1.get_num_players g1.mission_num
          (cards.count .FAIL) (cards.count .REVERSE)) := by
  simp only [Game.resolve_mission, hps, hcs, hcards]
  split_ifs with hA hB
  · simp [clearMissionCards_mnr]
  · simp [clearMissionCards_mnr]
  · split <;> simp [clearMissionCards_mnr]

/-- C1 (amended): on the double-fail mission (at least 7 players,
mission index 3), a completed `play_mission_card` resolution stores
PASS when the played cards hold exactly one FAIL and no REVERSE, FAIL
when they hold exactly one FAIL and exactly one REVERSE (the reverse
fails the otherwise-passing double-fail mission), and FAIL when they
hold exactly two FAILs and no REVERSE. -/
theorem C1_double_fail_resolution
    (shuffle : List (Option MissionCard) → List (Option MissionCard))
    (hsh : ∀ l, (shuffle l).Perm l)
    (g : Game) (sid : String) (card : MissionCard) (p : Player) (ro : Role)
    (ps : List (String × Player)) (cs : List (Option MissionCard)) (f r : Nat)
    (hlobby : g.lobby_status = .IN_PROGRESS)
    (hphase : g.game_phase = .MISSION)
    (hnum7 : 7 ≤ g.get_num_players)
    (hmn : g.mission_num = 3)
    (hp : alookup g.session_id_to_player sid = some p)
    (hmem : p.name ∈ g.current_mission)
    (hcard : p.mission_card = none)
    (hro : p.role = some ro)
    (hval : pyValidateMissionCard ro card = .ok true)
    (hlast : g.current_mission_count + 1 = g.current_mission.length)
    (hps : lookupMissionPlayers (g.place_mission_card sid p card) g.current_mission = .ok ps)
    (hcs : ps.map (fun q => q.2.mission_card) = cs)
    (hnn : (none : Option MissionCard) ∉ cs)
    (hf : cs.count (some .FAIL) = f)
    (hr : cs.count (some .REVERSE) = r) :
    (f = 1 ∧ r = 0 →
      nlookup ((g.play_mission_card shuffle sid card).1.mission_num_to_result) 3 =
        some MissionResult.PASS) ∧
    (f = 1 ∧ r = 1 →
      nlookup ((g.play_mission_card shuffle sid card).1.mission_num_to_result) 3 =
        some MissionResult.FAIL) ∧
    (f = 2 ∧ r = 0 →
      nlookup ((g.play_mission_card shuffle sid card).1.mission_num_to_result) 3 =
        some MissionResult.FAIL) := by
  have hred := play_mission_card_complete g shuffle sid card p ro hlobby hphase hp hmem
    hcard hro hval hlast
  have hnn2 : (none : Option MissionCard) ∉ shuffle cs :=
    fun hmem2 => hnn ((hsh cs).mem_iff.mp hmem2)
  obtain ⟨cards, hcards, hcount⟩ := deOption_of_no_none (shuffle cs) hnn2
  have hcf : cards.count .FAIL = f := by
    rw [hcount]
    exact (perm_count (hsh cs) _).trans hf
  have hcr : cards.count .REVERSE = r := by
    rw [hcount]
    exact (perm_count (hsh cs) _).trans hr
  have hres := resolve_mission_result (g.place_mission_card sid p card) shuffle ps cs cards
    hps hcs hcards
  have hN : (g.place_mission_card sid p card).get_num_players = g.get_num_players := by
    simp only [Game.place_mission_card, Game.get_num_players]
    exact aset_length_of_mem _ hp
  have hmain : nlookup ((g.play_mission_card shuffle sid card).1.mission_num_to_result) 3 =
      some (missionResultOf g.get_num_players 3 f r) := by
    rw [hred, hres, hN, hcf, hcr]
    have hmn1 : (g.place_mission_card sid p card).mission_num = 3 := hmn
    rw [hmn1]
    exact nlookup_nset_self _ _ _
  refine ⟨?_, ?_, ?_⟩
  · rintro ⟨rfl, rfl⟩
    rw [hmain]
    simp [missionResultOf, hnum7]
  · rintro ⟨rfl, rfl⟩
    rw [hmain]
    simp [missionResultOf, hnum7]
  · rintro ⟨rfl, rfl⟩
    rw [hmain]
    simp [missionResultOf, hnum7]

/-- C1 witness: in the concrete seven-player double-fail-mission game,
the three card profiles resolve to PASS, FAIL and FAIL respectively. -/
theorem C1_double_fail_resolution_witness :
    nlookup ((gC1 .SUCCESS .SUCCESS).play_mission_card id "3" .FAIL).1.mission_num_to_result 3 =
      some MissionResult.PASS ∧
    nlookup ((gC1 .REVERSE .SUCCESS).play_mission_card id "3" .FAIL).1.mission_num_to_result 3 =
      some MissionResult.FAIL ∧
    nlookup ((gC1 .FAIL .SUCCESS).play_mission_card id "3" .FAIL).1.mission_num_to_result 3 =
      some MissionResult.FAIL := by
  refine ⟨?_, ?_, ?_⟩
  · exact (C1_double_fail_resolution id (fun l => List.Perm.refl l) (gC1 .SUCCESS .SUCCESS)
      "3" .FAIL _ _ _ _ 1 0 rfl rfl (by decide) rfl rfl (by decide) rfl rfl rfl (by decide)
      rfl rfl (by decide) rfl rfl).1 ⟨rfl, rfl⟩
  · exact (C1_double_fail_resolution id (fun l => List.Perm.refl l) (gC1 .REVERSE .SUCCESS)
      "3" .FAIL _ _ _ _ 1 1 rfl rfl (by decide) rfl rfl (by decide) rfl rfl rfl (by decide)
      rfl rfl (by decide) rfl rfl).2.1 ⟨rfl, rfl⟩
  · exact (C1_double_fail_resolution id (fun l => List.Perm.refl l) (gC1 .FAIL .SUCCESS)
      "3" .FAIL _ _ _ _ 2 0 rfl rfl (by decide) rfl rfl (by decide) rfl rfl rfl (by decide)
      rfl rfl (by decide) rfl rfl).2.2 ⟨rfl, rfl⟩

end Thavalon

namespace Thavalon

theorem lookupMissionPlayers_sound (g : Game) :
    ∀ (names : List String) (ps : List (String × Player)),
    lookupMissionPlayers g names = .ok ps →
    ∀ q ∈ ps, alookup g.session_id_to_player q.1 = some q.2 := by
  intro names
  induction names with
  | nil =>
    intro ps h q hq
    simp [lookupMissionPlayers] at h
    subst h
    simp at hq
  | cons n t ih =>
    intro ps h q hq
    simp only [lookupMissionPlayers] at h
    cases h1 : alookup g.player_name_to_session_id n with
    | none => simp only [h1] at h; exact absurd h (by simp)
    | some sid =>
      simp only [h1] at h
      cases h2 : alookup g.session_id_to_player sid with
      | none => simp only [h2] at h; exact absurd h (by simp)
      | some p =>
        simp only [h2] at h
        cases h3 : lookupMissionPlayers g t with
        | error e => simp only [h3] at h; exact absurd h (by simp)
        | ok ps2 =>
          simp only [h3] at h
          simp at h
          subst h
          rcases List.mem_cons.mp hq with h4 | h4
          · subst h4
            exact h2
          · exact ih ps2 h3 q h4

theorem mem_aset {α : Type} (l : List (String × α)) (k : String) (v : α) :
    ∀ q ∈ aset l k v, q ∈ l ∨ q = (k, v) := by
  induction l with
  | nil =>
    intro q hq
    simp [aset] at hq
    simp [hq]
  | cons h1 t ih =>
    obtain ⟨k1, v1⟩ := h1
    intro q hq
    by_cases hk : k1 = k
    · subst hk
      simp only [aset, if_pos rfl] at hq
      rcases List.mem_cons.mp hq with h2 | h2
      · right; simp [h2]
      · left; exact List.mem_cons_of_mem _ h2
    · simp only [aset, if_neg hk] at hq
      rcases List.mem_cons.mp hq with h2 | h2
      · left; simp [h2]
      · rcases ih q h2 with h3 | h3
        · left; exact List.mem_cons_of_mem _ h3
        · right; exact h3

theorem map_proj_mem {α β : Type} (f : α → β) :
    ∀ (l l2 : List α), l.map f = l2.map f → ∀ x ∈ l2, ∃ y ∈ l, f y = f x := by
  intro l
  induction l with
  | nil =>
    intro l2 h x hx
    cases l2 with
    | nil => simp at hx
    | cons a t => simp at h
  | cons a t ih =>
    intro l2 h x hx
    cases l2 with
    | nil => simp at hx
    | cons b t2 =>
      simp only [List.map_cons, List.cons.injEq] at h
      rcases List.mem_cons.mp hx with h2 | h2
      · subst h2
        exact ⟨a, List.mem_cons_self _ _, h.1⟩
      · obtain ⟨y, hy, hfy⟩ := ih t2 h.2 x h2
        exact ⟨y, List.mem_cons_of_mem _ hy, hfy⟩

end Thavalon

namespace Thavalon

theorem clearMissionCards_projF :
    ∀ (ps : List (String × Player)) (g : Game),
    (∀ q ∈ ps, (alookup g.session_id_to_player q.1).map (fun p => (p.name, p.role)) =
        some ((q : String × Player).2.name, q.2.role)) →
    (clearMissionCards ps g).session_id_to_player.map (fun q => (q.1, q.2.name, q.2.role)) =
      g.session_id_to_player.map (fun q => (q.1, q.2.name, q.2.role)) := by
  intro ps
  induction ps with
  | nil => intro g h; rfl
  | cons q0 t ih =>
    intro g h
    obtain ⟨sid, p⟩ := q0
    have hhead := h (sid, p) (List.mem_cons_self _ _)
    cases hw : alookup g.session_id_to_player sid with
    | none => rw [hw] at hhead; simp at hhead
    | some w =>
      rw [hw] at hhead
      simp only [Option.map_some] at hhead
      have hwn : w.name = p.name := (Prod.ext_iff.mp (Option.some.injEq _ _ ▸ hhead)).1
      have hwr : w.role = p.role := (Prod.ext_iff.mp (Option.some.injEq _ _ ▸ hhead)).2
      simp only [clearMissionCards]
      set g1 : Game := { g with
        session_id_to_player := aset g.session_id_to_player sid { p with mission_card := none } } with hg1
      have hstep : g1.session_id_to_player.map (fun q => (q.1, q.2.name, q.2.role)) =
          g.session_id_to_player.map (fun q => (q.1, q.2.name, q.2.role)) := by
        rw [hg1]
        exact aset_map_eq _ hw (by simp [hwn, hwr])
      have hproj : g1.session_id_to_player =
          aset g.session_id_to_player sid { p with mission_card := none } := by
        rw [hg1]
      have htail : ∀ q ∈ t, (alookup g1.session_id_to_player q.1).map (fun p => (p.name, p.role)) =
          some ((q : String × Player).2.name, q.2.role) := by
        intro q hq
        by_cases hk : q.1 = sid
        · rw [hproj, hk, alookup_aset_self]
          have hq2 := h q (List.mem_cons_of_mem _ hq)
          rw [hk, hw] at hq2
          simp at hq2 ⊢
          refine ⟨?_, ?_⟩
          · rw [← hq2.1, hwn]
          · rw [← hq2.2, hwr]
        · rw [hproj, alookup_aset_ne _ _ hk]
          exact h q (List.mem_cons_of_mem _ hq)
      rw [ih g1 htail, hstep]

theorem roleRevealLoop_covers :
    ∀ (l : List (String × Player)) (acc : RoleReveal),
    (∀ q ∈ l, ∃ r, (q : String × Player).2.role = some r) →
    ∃ rv, roleRevealLoop l acc = .ok rv ∧
      (∀ x ∈ (acc.good ++ acc.evil).map Prod.fst, x ∈ (rv.good ++ rv.evil).map Prod.fst) ∧
      (∀ q ∈ l, (q : String × Player).2.name ∈ (rv.good ++ rv.evil).map Prod.fst) := by
  intro l
  induction l with
  | nil =>
    intro acc h
    exact ⟨acc, rfl, fun x hx => hx, by simp⟩
  | cons q0 t ih =>
    intro acc h
    obtain ⟨sid, p⟩ := q0
    obtain ⟨r, hr⟩ := h (sid, p) (List.mem_cons_self _ _)
    have htail : ∀ q ∈ t, ∃ r2, (q : String × Player).2.role = some r2 :=
      fun q hq => h q (List.mem_cons_of_mem _ hq)
    obtain ⟨psid, pname, pv, pc, prole⟩ := p
    simp only at hr
    subst hr
    obtain ⟨rcls, rrn, rtm, rrev, rseen, rua, rac, rsc, rst, rln⟩ := r
    cases rtm with
    | GOOD =>
      obtain ⟨rv, hrv, hacc, hcov⟩ :=
        ih { acc with good := acc.good ++ [(pname, rrn)] } htail
      refine ⟨rv, ?_, ?_, ?_⟩
      · exact hrv
      · intro x hx
        apply hacc
        simp only [List.map_append, List.mem_append] at hx ⊢
        rcases hx with hx | hx
        · left; simp [hx]
        · right; exact hx
      · intro q hq
        rcases List.mem_cons.mp hq with h2 | h2
        · subst h2
          apply hacc
          simp
        · exact hcov q h2
    | EVIL =>
      obtain ⟨rv, hrv, hacc, hcov⟩ :=
        ih { acc with evil := acc.evil ++ [(pname, rrn)] } htail
      refine ⟨rv, ?_, ?_, ?_⟩
      · exact hrv
      · intro x hx
        apply hacc
        simp only [List.map_append, List.mem_append] at hx ⊢
        rcases hx with hx | hx
        · left; exact hx
        · right; simp [hx]
      · intro q hq
        rcases List.mem_cons.mp hq with h2 | h2
        · subst h2
          apply hacc
          simp
        · exact hcov q h2

end Thavalon

namespace Thavalon

theorem clearMissionCards_lobby (ps : List (String × Player)) (g : Game) :
    (clearMissionCards ps g).lobby_status = g.lobby_status := by
  obtain ⟨m, hm⟩ := clearMissionCards_shape ps g
  rw [hm]

theorem clearMissionCards_phase (ps : List (String × Player)) (g : Game) :
    (clearMissionCards ps g).game_phase = g.game_phase := by
  obtain ⟨m, hm⟩ := clearMissionCards_shape ps g
  rw [hm]

theorem resolve_mission_branches (g1 : Game)
    (shuffle : List (Option MissionCard) → List (Option MissionCard))
    (ps : List (String × Player)) (cs : List (Option MissionCard)) (cards : List MissionCard)
    (R : MissionResult) (nf np : Nat)
    (hps : lookupMissionPlayers g1 g1.current_mission = .ok ps)
    (hcs : ps.map (fun q => q.2.mission_card) = cs)
    (hcards : deOption (shuffle cs) = some cards)
    (hR : R = missionResultOf g1.get_num_players g1.mission_num
      (cards.count .FAIL) (cards.count .REVERSE))
    (hnf : nf = ((nset g1.mission_num_to_result g1.mission_num R).map Prod.snd).count MissionResult.FAIL)
    (hnp : np = (nset g1.mission_num_to_result g1.mission_num R).length - nf) :
    (np = 3 →
      (g1.resolve_mission shuffle).1.game_phase = GamePhase.ASSASSINATION ∧
      (g1.resolve_mission shuffle).1.lobby_status = g1.lobby_status) ∧
    (np ≠ 3 → nf = 3 →
      (g1.resolve_mission shuffle).1.game_phase = g1.game_phase ∧
      (g1.resolve_mission shuffle).1.lobby_status = LobbyStatus.DONE ∧
      (g1.resolve_mission shuffle).2 = .error "AttributeError: DONE") ∧
    (np ≠ 3 → nf ≠ 3 →
      (g1.resolve_mission shuffle).1.game_phase = GamePhase.PROPOSAL ∧
      (g1.resolve_mission shuffle).1.lobby_status = g1.lobby_status) := by
  subst hR
  subst hnf
  subst hnp
  refine ⟨?_, ?_, ?_⟩
  · intro hA
    simp only [Game.resolve_mission, hps, hcs, hcards]
    rw [if_pos hA]
    exact ⟨rfl, clearMissionCards_lobby _ _⟩
  · intro hA hB
    simp only [Game.resolve_mission, hps, hcs, hcards]
    rw [if_neg hA, if_pos hB]
    exact ⟨clearMissionCards_phase _ _, rfl, rfl⟩
  · intro hA hB
    simp only [Game.resolve_mission, hps, hcs, hcards]
    rw [if_neg hA, if_neg hB]
    split <;> simp [clearMissionCards_phase, clearMissionCards_lobby]

end Thavalon

namespace Thavalon

/-- C3 (code bug): when a completed `play_mission_card` resolution
brings the stored FAIL-mission count to 3, the source sets the lobby
status to DONE (`game.py` line 510) and then crashes with
`AttributeError` on the nonexistent `GamePhase.DONE` member (line 511,
`game_constants.py` lines 4-8), so the phase stays MISSION and no
terminal role reveal is returned — the claimed DONE phase and reveal
never happen. The other two claimed transitions do hold: a third PASS
moves the phase to ASSASSINATION, and any other outcome returns it to
PROPOSAL. -/
theorem C3_third_fail_attribute_error
    (shuffle : List (Option MissionCard) → List (Option MissionCard))
    (g : Game) (sid : String) (card : MissionCard) (p : Player) (ro : Role)
    (ps : List (String × Player)) (cs : List (Option MissionCard)) (cards : List MissionCard)
    (nf np : Nat)
    (hlobby : g.lobby_status = .IN_PROGRESS)
    (hphase : g.game_phase = .MISSION)
    (hp : alookup g.session_id_to_player sid = some p)
    (hmem : p.name ∈ g.current_mission)
    (hcard : p.mission_card = none)
    (hro : p.role = some ro)
    (hval : pyValidateMissionCard ro card = .ok true)
    (hlast : g.current_mission_count + 1 = g.current_mission.length)
    (hps : lookupMissionPlayers (g.place_mission_card sid p card) g.current_mission = .ok ps)
    (hcs : ps.map (fun q => q.2.mission_card) = cs)
    (hcards : deOption (shuffle cs) = some cards)
    (hkeys : g.mission_num_to_result.map Prod.fst = List.range g.mission_num)
    (hmn4 : g.mission_num ≤ 4)
    (hnf : nf = (((g.play_mission_card shuffle sid card).1.mission_num_to_result).map Prod.snd).count MissionResult.FAIL)
    (hnp : np = ((g.play_mission_card shuffle sid card).1.mission_num_to_result).length - nf) :
    (np = 3 →
      (g.play_mission_card shuffle sid card).1.game_phase = GamePhase.ASSASSINATION) ∧
    (nf = 3 →
      (g.play_mission_card shuffle sid card).1.game_phase = GamePhase.MISSION ∧
      (g.play_mission_card shuffle sid card).1.lobby_status = LobbyStatus.DONE ∧
      (g.play_mission_card shuffle sid card).2 = .error "AttributeError: DONE") ∧
    (np ≠ 3 → nf ≠ 3 →
      (g.play_mission_card shuffle sid card).1.game_phase = GamePhase.PROPOSAL) := by
  have hred := play_mission_card_complete g shuffle sid card p ro hlobby hphase hp hmem
    hcard hro hval hlast
  set g1 : Game := g.place_mission_card sid p card with hg1
  have hmnr1 : g1.mission_num_to_result = g.mission_num_to_result := rfl
  have hmn1 : g1.mission_num = g.mission_num := rfl
  have hbr := resolve_mission_branches g1 shuffle ps cs cards
    (missionResultOf g1.get_num_players g1.mission_num (cards.count .FAIL) (cards.count .REVERSE))
    (((nset g1.mission_num_to_result g1.mission_num
      (missionResultOf g1.get_num_players g1.mission_num (cards.count .FAIL) (cards.count .REVERSE))).map
        Prod.snd).count MissionResult.FAIL)
    ((nset g1.mission_num_to_result g1.mission_num
      (missionResultOf g1.get_num_players g1.mission_num (cards.count .FAIL) (cards.count .REVERSE))).length -
      ((nset g1.mission_num_to_result g1.mission_num
        (missionResultOf g1.get_num_players g1.mission_num (cards.count .FAIL) (cards.count .REVERSE))).map
          Prod.snd).count MissionResult.FAIL)
    hps hcs hcards rfl rfl rfl
  have hresult := resolve_mission_result g1 shuffle ps cs cards hps hcs hcards
  have hout : (g.play_mission_card shuffle sid card).1.mission_num_to_result =
      nset g1.mission_num_to_result g1.mission_num
        (missionResultOf g1.get_num_players g1.mission_num
          (cards.count .FAIL) (cards.count .REVERSE)) := by
    rw [hred]
    exact hresult
  have hnf2 : nf = ((nset g1.mission_num_to_result g1.mission_num
      (missionResultOf g1.get_num_players g1.mission_num
        (cards.count .FAIL) (cards.count .REVERSE))).map Prod.snd).count MissionResult.FAIL := by
    rw [hnf, hout]
  have hnp2 : np = (nset g1.mission_num_to_result g1.mission_num
      (missionResultOf g1.get_num_players g1.mission_num
        (cards.count .FAIL) (cards.count .REVERSE))).length - nf := by
    rw [hnp, hout]
  -- history length bound
  have hfresh : g1.mission_num ∉ g1.mission_num_to_result.map Prod.fst := by
    rw [hmnr1, hmn1, hkeys]
    simp
  have hlen : (nset g1.mission_num_to_result g1.mission_num
      (missionResultOf g1.get_num_players g1.mission_num
        (cards.count .FAIL) (cards.count .REVERSE))).length = g.mission_num + 1 := by
    rw [nset_length_of_not_mem _ hfresh, hmnr1]
    have : g.mission_num_to_result.length = g.mission_num := by
      have h2 := congrArg List.length hkeys
      simpa using h2
    rw [this]
  refine ⟨?_, ?_, ?_⟩
  · intro h3
    rw [hred]
    exact (hbr.1 (by rw [← hnf2, ← hnp2]; exact h3)).1
  · intro h3
    have hnp3 : np ≠ 3 := by
      rw [hnp2, hlen]
      omega
    have hb := hbr.2.1 (by rw [← hnf2, ← hnp2]; exact hnp3) (by rw [← hnf2]; exact h3)
    obtain ⟨hph, hlob, herr⟩ := hb
    refine ⟨?_, by rw [hred]; exact hlob, by rw [hred]; exact herr⟩
    rw [hred, hph]
    exact hphase
  · intro h3 h4
    rw [hred]
    exact (hbr.2.2 (by rw [← hnf2, ← hnp2]; exact h3) (by rw [← hnf2]; exact h4)).1

end Thavalon

namespace Thavalon

/-- C3 witness: in the concrete seven-player game the third pass sends
the game to ASSASSINATION; the third fail sets the lobby status to
DONE but leaves the phase at MISSION and raises `AttributeError: DONE`;
and a 2-2 split returns to PROPOSAL. -/
theorem C3_third_fail_attribute_error_witness :
    ((gC3 [(0, .PASS), (1, .PASS), (2, .FAIL)] .SUCCESS .SUCCESS).play_mission_card
      id "3" .FAIL).1.game_phase = GamePhase.ASSASSINATION ∧
    ((gC3 [(0, .FAIL), (1, .FAIL), (2, .PASS)] .FAIL .SUCCESS).play_mission_card
      id "3" .FAIL).1.game_phase = GamePhase.MISSION ∧
    ((gC3 [(0, .FAIL), (1, .FAIL), (2, .PASS)] .FAIL .SUCCESS).play_mission_card
      id "3" .FAIL).1.lobby_status = LobbyStatus.DONE ∧
    ((gC3 [(0, .FAIL), (1, .FAIL), (2, .PASS)] .FAIL .SUCCESS).play_mission_card
      id "3" .FAIL).2 = .error "AttributeError: DONE" ∧
    ((gC3 [(0, .PASS), (1, .FAIL), (2, .PASS)] .FAIL .SUCCESS).play_mission_card
      id "3" .FAIL).1.game_phase = GamePhase.PROPOSAL := by
  refine ⟨?_, ?_, ?_, ?_, ?_⟩
  · exact (C3_third_fail_attribute_error id (gC3 [(0, .PASS), (1, .PASS), (2, .FAIL)] .SUCCESS .SUCCESS) "3" .FAIL
      _ _ _ _ _ 1 3 rfl rfl rfl (by decide) rfl rfl rfl rfl rfl rfl rfl rfl (by decide)
      rfl rfl).1 rfl
  · exact ((C3_third_fail_attribute_error id (gC3 [(0, .FAIL), (1, .FAIL), (2, .PASS)] .FAIL .SUCCESS) "3" .FAIL
      _ _ _ _ _ 3 1 rfl rfl rfl (by decide) rfl rfl rfl rfl rfl rfl rfl rfl (by decide)
      rfl rfl).2.1 rfl).1
  · exact ((C3_third_fail_attribute_error id (gC3 [(0, .FAIL), (1, .FAIL), (2, .PASS)] .FAIL .SUCCESS) "3" .FAIL
      _ _ _ _ _ 3 1 rfl rfl rfl (by decide) rfl rfl rfl rfl rfl rfl rfl rfl (by decide)
      rfl rfl).2.1 rfl).2.1
  · exact ((C3_third_fail_attribute_error id (gC3 [(0, .FAIL), (1, .FAIL), (2, .PASS)] .FAIL .SUCCESS) "3" .FAIL
      _ _ _ _ _ 3 1 rfl rfl rfl (by decide) rfl rfl rfl rfl rfl rfl rfl rfl (by decide)
      rfl rfl).2.1 rfl).2.2
  · exact (C3_third_fail_attribute_error id (gC3 [(0, .PASS), (1, .FAIL), (2, .PASS)] .FAIL .SUCCESS) "3" .FAIL
      _ _ _ _ _ 2 2 rfl rfl rfl (by decide) rfl rfl rfl rfl rfl rfl rfl rfl (by decide)
      rfl rfl).2.2 (by decide) (by decide)

end Thavalon

namespace Thavalon

theorem add_player_error_unchanged (g : Game) (sid name : String)
    (h : ∃ e, (g.add_player sid name).2 = .error e) :
    (g.add_player sid name).1 = g := by
  obtain ⟨e, he⟩ := h
  revert he
  unfold Game.add_player
  split_ifs <;> simp

theorem remove_player_error_unchanged (g : Game) (sid : String)
    (h : ∃ e, (g.remove_player sid).2 = .error e) :
    (g.remove_player sid).1 = g := by
  obtain ⟨e, he⟩ := h
  revert he
  unfold Game.remove_player
  split_ifs with h1
  · simp
  · cases h2 : alookup g.session_id_to_player sid with
    | none => simp [h2]
    | some p =>
      cases h3 : alookup g.player_name_to_session_id p.name with
      | none => simp [h2, h3]
      | some s => simp [h2, h3]

theorem set_vote_reject_unchanged (g : Game) (sid : String) (vote : Bool)
    (h : svReject g sid) :
    (g.set_vote sid vote).1 = g ∧ ∃ e, (g.set_vote sid vote).2 = .error e := by
  unfold Game.set_vote
  by_cases h1 : g.lobby_status ≠ LobbyStatus.IN_PROGRESS
  · rw [if_pos h1]
    exact ⟨rfl, _, rfl⟩
  rw [if_neg h1]
  by_cases h2 : g.game_phase ≠ GamePhase.VOTE
  · rw [if_pos h2]
    exact ⟨rfl, _, rfl⟩
  rw [if_neg h2]
  rcases h with h | h | h | h
  · exact absurd h h1
  · exact absurd h h2
  · simp only [h]
    exact ⟨by first | rfl | trivial, _, by first | rfl | trivial⟩
  · obtain ⟨p, hp, hv⟩ := h
    simp only [hp, if_pos hv]
    exact ⟨by first | rfl | trivial, _, by first | rfl | trivial⟩

theorem play_mission_card_reject_unchanged (g : Game)
    (shuffle : List (Option MissionCard) → List (Option MissionCard))
    (sid : String) (card : MissionCard)
    (h : pmcReject g sid card) :
    (g.play_mission_card shuffle sid card).1 = g ∧
    ∃ e, (g.play_mission_card shuffle sid card).2 = .error e := by
  unfold Game.play_mission_card
  by_cases h1 : g.lobby_status ≠ LobbyStatus.IN_PROGRESS
  · rw [if_pos h1]
    exact ⟨rfl, _, rfl⟩
  rw [if_neg h1]
  by_cases h2 : g.game_phase ≠ GamePhase.MISSION
  · rw [if_pos h2]
    exact ⟨rfl, _, rfl⟩
  rw [if_neg h2]
  rcases h with h | h | h | h
  · exact absurd h h1
  · exact absurd h h2
  · rw [h]
    exact ⟨rfl, _, rfl⟩
  · obtain ⟨p, hp, hcases⟩ := h
    simp only [hp]
    by_cases h3 : p.name ∉ g.current_mission
    · simp only [if_pos h3]
      exact ⟨by first | rfl | trivial, _, by first | rfl | trivial⟩
    simp only [if_neg h3]
    by_cases h4 : p.mission_card ≠ none
    · simp only [if_pos h4]
      exact ⟨by first | rfl | trivial, _, by first | rfl | trivial⟩
    simp only [if_neg h4]
    rcases hcases with h | h | h | h | h
    · exact absurd h h3
    · exact absurd h h4
    · simp only [h]
      exact ⟨by first | rfl | trivial, _, by first | rfl | trivial⟩
    · obtain ⟨ro, e, hro, hve⟩ := h
      simp only [hro, hve]
      exact ⟨by first | rfl | trivial, _, by first | rfl | trivial⟩
    · obtain ⟨ro, hro, hvf⟩ := h
      simp only [hro, hvf]
      exact ⟨by first | rfl | trivial, _, by first | rfl | trivial⟩

theorem set_proposal_reject_unchanged (g : Game) (names : List String)
    (h : spReject g names) :
    (g.set_proposal names).1 = g ∧ ∃ e, (g.set_proposal names).2 = .error e := by
  unfold Game.set_proposal
  by_cases h1 : g.lobby_status ≠ LobbyStatus.IN_PROGRESS
  · rw [if_pos h1]
    exact ⟨rfl, _, rfl⟩
  rw [if_neg h1]
  by_cases h2 : g.game_phase ≠ GamePhase.PROPOSAL
  · rw [if_pos h2]
    exact ⟨rfl, _, rfl⟩
  rw [if_neg h2]
  rcases h with h | h | h | h | h
  · exact absurd h h1
  · exact absurd h h2
  · obtain ⟨e, he⟩ := h
    simp only [he]
    exact ⟨by first | rfl | trivial, _, by first | rfl | trivial⟩
  · obtain ⟨k, hk, hne⟩ := h
    simp only [hk, if_pos hne]
    exact ⟨by first | rfl | trivial, _, by first | rfl | trivial⟩
  · obtain ⟨n, hn, hcont⟩ := h
    cases hsz : g.get_proposal_size with
    | error e => exact ⟨by simp [hsz], e, by simp [hsz]⟩
    | ok k =>
      by_cases hlen : names.length ≠ k
      · simp only [hsz, if_pos hlen]
        exact ⟨by first | rfl | trivial, _, by first | rfl | trivial⟩
      simp only [hsz, if_neg hlen]
      have hfind : ∃ n2, names.find? (fun x => !(g.proposal_order_names.contains x)) = some n2 := by
        rcases hfound : names.find? (fun x => !(g.proposal_order_names.contains x)) with _ | n2
        · exfalso
          have h5 := List.find?_eq_none.mp hfound n hn
          apply h5
          show (!(g.proposal_order_names.contains n)) = true
          rw [hcont]
          rfl
        · exact ⟨n2, rfl⟩
      obtain ⟨n2, hn2⟩ := hfind
      simp only [hsz, hn2]
      exact ⟨by first | rfl | trivial, _, by first | rfl | trivial⟩

end Thavalon

namespace Thavalon

/-- C9 (amended): every rejection raised by the operations' validation
checks leaves the state unchanged: add_player and remove_player are
unchanged on every rejection whatsoever, and set_proposal, set_vote and
play_mission_card are rejected with the state unchanged whenever one of
their validation conditions (spelled out by `spReject`, `svReject`,
`pmcReject`, mirroring the source's guard list) is violated. -/
theorem C9_validation_rejections (g : Game) (sid name : String) (vote : Bool)
    (names : List String) (card : MissionCard)
    (shuffle : List (Option MissionCard) → List (Option MissionCard)) :
    ((∃ e, (g.add_player sid name).2 = .error e) → (g.add_player sid name).1 = g) ∧
    ((∃ e, (g.remove_player sid).2 = .error e) → (g.remove_player sid).1 = g) ∧
    (spReject g names →
      (g.set_proposal names).1 = g ∧ ∃ e, (g.set_proposal names).2 = .error e) ∧
    (svReject g sid →
      (g.set_vote sid vote).1 = g ∧ ∃ e, (g.set_vote sid vote).2 = .error e) ∧
    (pmcReject g sid card →
      (g.play_mission_card shuffle sid card).1 = g ∧
      ∃ e, (g.play_mission_card shuffle sid card).2 = .error e) :=
  ⟨add_player_error_unchanged g sid name,
   remove_player_error_unchanged g sid,
   set_proposal_reject_unchanged g names,
   set_vote_reject_unchanged g sid vote,
   play_mission_card_reject_unchanged g shuffle sid card⟩

/-- C9 witness: concrete rejected calls (wrong lobby status, wrong
size, wrong phase) on the concrete mission-1 game leave it unchanged. -/
theorem C9_validation_rejections_witness :
    (gC9.add_player "1" "p9").1 = gC9 ∧
    (gC9.remove_player "1").1 = gC9 ∧
    (gC9.set_proposal ["p1"]).1 = gC9 ∧
    (gC9.set_vote "1" true).1 = gC9 ∧
    (gC9.play_mission_card id "1" MissionCard.FAIL).1 = gC9 := by
  have h := C9_validation_rejections gC9 "1" "p9" true ["p1"] MissionCard.FAIL id
  refine ⟨h.1 ⟨_, rfl⟩, h.2.1 ⟨_, rfl⟩, (h.2.2.1 ?_).1, (h.2.2.2.1 ?_).1, (h.2.2.2.2 ?_).1⟩
  · exact Or.inr (Or.inr (Or.inr (Or.inl ⟨3, rfl, by decide⟩)))
  · exact Or.inr (Or.inl (by decide))
  · exact Or.inr (Or.inl (by decide))

end Thavalon

namespace Thavalon

theorem alookup_congr_of_map_proj {α β : Type} (f : α → β) :
    ∀ (l l2 : List (String × α)),
    l.map (fun q => (q.1, f q.2)) = l2.map (fun q => (q.1, f q.2)) →
    ∀ k, (alookup l k).map f = (alookup l2 k).map f := by
  intro l
  induction l with
  | nil =>
    intro l2 h k
    cases l2 with
    | nil => rfl
    | cons b t2 => simp at h
  | cons a t ih =>
    intro l2 h k
    cases l2 with
    | nil => simp at h
    | cons b t2 =>
      obtain ⟨k1, v⟩ := a
      obtain ⟨k2, w⟩ := b
      simp only [List.map_cons, List.cons.injEq, Prod.mk.injEq] at h
      obtain ⟨⟨hk12, hfvw⟩, htail⟩ := h
      subst hk12
      by_cases hk : k1 = k
      · subst hk
        simp [alookup, hfvw]
      · simp only [alookup, if_neg hk]
        exact ih t2 htail k

theorem alookup_map_name_congr (l l2 : List (String × Player))
    (h : l.map (fun q => (q.1, q.2.name, q.2.session_id)) =
      l2.map (fun q => (q.1, q.2.name, q.2.session_id)))
    (k : String) : (alookup l k).map Player.name = (alookup l2 k).map Player.name := by
  have hproj := alookup_congr_of_map_proj (fun p => (p.name, p.session_id)) l l2 h k
  cases h1 : alookup l k with
  | none =>
    cases h2 : alookup l2 k with
    | none => rfl
    | some w => rw [h1, h2] at hproj; simp at hproj
  | some w =>
    cases h2 : alookup l2 k with
    | none => rw [h1, h2] at hproj; simp at hproj
    | some w2 =>
      rw [h1, h2] at hproj
      have h3 : (w.name, w.session_id) = (w2.name, w2.session_id) := Option.some.inj hproj
      have h4 : w.name = w2.name := (Prod.ext_iff.mp h3).1
      simp [Option.map, h4]

theorem Inv_of_proj (g g2 : Game)
    (hn : g2.player_name_to_session_id = g.player_name_to_session_id)
    (hs : g2.session_id_to_player.map (fun q => (q.1, q.2.name, q.2.session_id)) =
      g.session_id_to_player.map (fun q => (q.1, q.2.name, q.2.session_id)))
    (hInv : Inv g) : Inv g2 := by
  obtain ⟨h1, h2, h3, h4, h5, h6⟩ := hInv
  have hkeys : g2.session_id_to_player.map Prod.fst = g.session_id_to_player.map Prod.fst := by
    have := congrArg (List.map Prod.fst) hs
    simpa using this
  refine ⟨?_, ?_, ?_, ?_, ?_, ?_⟩
  · rw [hkeys]
    exact h1
  · rw [hn]
    exact h2
  · intro q hq
    obtain ⟨y, hy, hfy⟩ := map_proj_mem _ g.session_id_to_player g2.session_id_to_player hs.symm q hq
    have hk := congrArg (fun z => z.1) hfy
    have hsid := congrArg (fun z => z.2.2) hfy
    simp only at hk hsid
    rw [← hsid, h3 y hy, hk]
  · intro q hq
    obtain ⟨y, hy, hfy⟩ := map_proj_mem _ g.session_id_to_player g2.session_id_to_player hs.symm q hq
    have hk := congrArg (fun z => z.1) hfy
    have hname := congrArg (fun z => z.2.1) hfy
    simp only at hk hname
    rw [hn, ← hname, h4 y hy, hk]
  · intro q hq
    rw [hn] at hq
    have hname := alookup_map_name_congr g2.session_id_to_player g.session_id_to_player hs q.2
    rw [hname]
    exact h5 q hq
  · have hl2 := congrArg List.length hs
    simp only [List.length_map] at hl2
    rw [hl2, hn]
    exact h6

theorem use_ability_fst (g : Game) (sid : String) : (g.use_ability sid).1 = g := by
  unfold Game.use_ability
  cases alookup g.session_id_to_player sid with
  | none => rfl
  | some p =>
    by_cases h1 : g.maeve_player = some p.session_id <;>
      by_cases h2 : g.agravaine_player = some p.session_id <;> simp [h1, h2]

theorem advance_proposal_maps (g : Game) :
    (g.advance_proposal).1.session_id_to_player = g.session_id_to_player ∧
    (g.advance_proposal).1.player_name_to_session_id = g.player_name_to_session_id := by
  unfold Game.advance_proposal
  dsimp only
  split <;> exact ⟨rfl, rfl⟩

theorem send_mission_maps (g : Game) (i : Nat) :
    (g.send_mission i).1.session_id_to_player = g.session_id_to_player ∧
    (g.send_mission i).1.player_name_to_session_id = g.player_name_to_session_id := by
  unfold Game.send_mission
  dsimp only
  split <;> exact ⟨rfl, rfl⟩

theorem advance_proposal_maps2 {g g2 : Game} {r : Except String Unit}
    (h : g.advance_proposal = (g2, r)) :
    g2.session_id_to_player = g.session_id_to_player ∧
    g2.player_name_to_session_id = g.player_name_to_session_id := by
  have h2 := advance_proposal_maps g
  rw [h] at h2
  exact h2

theorem send_mission_maps2 {g g2 : Game} {i : Nat} {r : Except String MissionInfo}
    (h : g.send_mission i = (g2, r)) :
    g2.session_id_to_player = g.session_id_to_player ∧
    g2.player_name_to_session_id = g.player_name_to_session_id := by
  have h2 := send_mission_maps g i
  rw [h] at h2
  exact h2

theorem set_proposal_maps (g : Game) (ns : List String) :
    (g.set_proposal ns).1.session_id_to_player = g.session_id_to_player ∧
    (g.set_proposal ns).1.player_name_to_session_id = g.player_name_to_session_id := by
  unfold Game.set_proposal
  dsimp only
  split
  · exact ⟨rfl, rfl⟩
  · split
    · exact ⟨rfl, rfl⟩
    · split
      · exact ⟨rfl, rfl⟩
      · split
        · exact ⟨rfl, rfl⟩
        · split
          · exact ⟨rfl, rfl⟩
          · split
            · split
              · rename_i g2 e heq
                exact ⟨(advance_proposal_maps2 heq).1, (advance_proposal_maps2 heq).2⟩
              · rename_i g2 u heq
                split
                · exact ⟨(advance_proposal_maps2 heq).1, (advance_proposal_maps2 heq).2⟩
                · exact ⟨(advance_proposal_maps2 heq).1, (advance_proposal_maps2 heq).2⟩
            · split
              · exact ⟨rfl, rfl⟩
              · split
                · split
                  · rename_i g2 e heq
                    exact ⟨(advance_proposal_maps2 heq).1, (advance_proposal_maps2 heq).2⟩
                  · rename_i g2 u heq
                    have h := advance_proposal_maps2 heq
                    split
                    · rename_i g4 e2 heq2
                      have h2 := send_mission_maps2 heq2
                      exact ⟨h2.1.trans h.1, h2.2.trans h.2⟩
                    · rename_i g4 mi heq2
                      have h2 := send_mission_maps2 heq2
                      exact ⟨h2.1.trans h.1, h2.2.trans h.2⟩
                · split
                  · rename_i g2 e heq
                    exact ⟨(advance_proposal_maps2 heq).1, (advance_proposal_maps2 heq).2⟩
                  · rename_i g2 u heq
                    exact ⟨(advance_proposal_maps2 heq).1, (advance_proposal_maps2 heq).2⟩

end Thavalon

namespace Thavalon

theorem add_player_Inv (g : Game) (sid name : String) (hInv : Inv g) :
    Inv (g.add_player sid name).1 := by
  unfold Game.add_player
  dsimp only
  split_ifs with h1 h2 h3 h4 h5
  · exact hInv
  · exact hInv
  · exact hInv
  · exact hInv
  · exact hInv
  · obtain ⟨i1, i2, i3, i4, i5, i6⟩ := hInv
    have hs_none : alookup g.session_id_to_player sid = none := by
      cases hh : alookup g.session_id_to_player sid with
      | none => rfl
      | some w => rw [hh] at h3; simp at h3
    have hn_none : alookup g.player_name_to_session_id name = none := by
      cases hh : alookup g.player_name_to_session_id name with
      | none => rfl
      | some w => rw [hh] at h5; simp at h5
    have hset1 : aset g.session_id_to_player sid (mkPlayer sid name) =
        g.session_id_to_player ++ [(sid, mkPlayer sid name)] := aset_fresh _ hs_none
    have hset2 : aset g.player_name_to_session_id name sid =
        g.player_name_to_session_id ++ [(name, sid)] := aset_fresh _ hn_none
    have hsidnotin : sid ∉ g.session_id_to_player.map Prod.fst :=
      (alookup_eq_none_iff _ _).mp hs_none
    have hnamenotin : name ∉ g.player_name_to_session_id.map Prod.fst :=
      (alookup_eq_none_iff _ _).mp hn_none
    refine ⟨?_, ?_, ?_, ?_, ?_, ?_⟩
    · show ((aset g.session_id_to_player sid (mkPlayer sid name)).map Prod.fst).Nodup
      rw [hset1]
      simp only [List.map_append, List.map_cons, List.map_nil]
      refine List.Nodup.append i1 (List.nodup_singleton _) ?_
      intro a ha hb
      simp only [List.mem_singleton] at hb
      subst hb
      exact hsidnotin ha
    · show ((aset g.player_name_to_session_id name sid).map Prod.fst).Nodup
      rw [hset2]
      simp only [List.map_append, List.map_cons, List.map_nil]
      refine List.Nodup.append i2 (List.nodup_singleton _) ?_
      intro a ha hb
      simp only [List.mem_singleton] at hb
      subst hb
      exact hnamenotin ha
    · intro q hq
      rw [hset1] at hq
      rcases List.mem_append.mp hq with hm | hm
      · exact i3 q hm
      · simp only [List.mem_singleton] at hm
        subst hm
        rfl
    · intro q hq
      rw [hset1] at hq
      show alookup (aset g.player_name_to_session_id name sid) _ = _
      rw [hset2]
      rcases List.mem_append.mp hq with hm | hm
      · have hne : (q : String × Player).2.name ≠ name := by
          intro he
          exact h4 (he ▸ List.mem_map.mpr ⟨q, hm, rfl⟩)
        have := i4 q hm
        rw [alookup_append_left this]
      · simp only [List.mem_singleton] at hm
        subst hm
        show alookup (g.player_name_to_session_id ++ [(name, sid)]) name = some sid
        rw [alookup_append_right hn_none]
        simp [alookup]
    · intro q hq
      rw [hset2] at hq
      show (alookup (aset g.session_id_to_player sid (mkPlayer sid name)) _).map _ = _
      rw [hset1]
      rcases List.mem_append.mp hq with hm | hm
      · have hx := i5 q hm
        cases hw : alookup g.session_id_to_player (q : String × String).2 with
        | none => rw [hw] at hx; simp at hx
        | some w =>
          rw [hw] at hx
          rw [alookup_append_left hw]
          exact hx
      · simp only [List.mem_singleton] at hm
        subst hm
        show (alookup (g.session_id_to_player ++ [(sid, mkPlayer sid name)]) sid).map
          Player.name = some name
        rw [alookup_append_right hs_none]
        simp [alookup, mkPlayer]
    · show (aset g.session_id_to_player sid (mkPlayer sid name)).length =
        (aset g.player_name_to_session_id name sid).length
      rw [hset1, hset2]
      simp [i6]

theorem remove_player_Inv (g : Game) (sid : String) (hInv : Inv g) :
    Inv (g.remove_player sid).1 := by
  unfold Game.remove_player
  dsimp only
  split
  · exact hInv
  · split
    · exact hInv
    · rename_i p hp
      split
      · exact hInv
      · rename_i s0 hs0
        obtain ⟨i1, i2, i3, i4, i5, i6⟩ := hInv
        have hmem : (sid, p) ∈ g.session_id_to_player := alookup_mem hp
        have hpn : alookup g.player_name_to_session_id p.name = some sid := i4 (sid, p) hmem
        refine ⟨?_, ?_, ?_, ?_, ?_, ?_⟩
        · show ((aerase g.session_id_to_player sid).map Prod.fst).Nodup
          exact i1.sublist (List.Sublist.map _ (aerase_sublist _ _))
        · show ((aerase g.player_name_to_session_id p.name).map Prod.fst).Nodup
          exact i2.sublist (List.Sublist.map _ (aerase_sublist _ _))
        · intro q hq
          exact i3 q (mem_aerase_of_nodup i1 hq).1
        · intro q hq
          obtain ⟨hq', hqne⟩ := mem_aerase_of_nodup i1 hq
          show alookup (aerase g.player_name_to_session_id p.name) _ = _
          have hne : (q : String × Player).2.name ≠ p.name := by
            intro he
            have h1 := i4 q hq'
            rw [he, hpn] at h1
            exact hqne (Option.some.inj h1.symm)
          rw [alookup_aerase_ne _ hne]
          exact i4 q hq'
        · intro q hq
          obtain ⟨hq', hqne⟩ := mem_aerase_of_nodup i2 hq
          show (alookup (aerase g.session_id_to_player sid) _).map _ = _
          have hx := i5 q hq'
          cases hw : alookup g.session_id_to_player (q : String × String).2 with
          | none => rw [hw] at hx; simp at hx
          | some w =>
            rw [hw] at hx
            have hwn : w.name = (q : String × String).1 := by
              simpa using hx
            have hne : (q : String × String).2 ≠ sid := by
              intro he
              rw [he, hp] at hw
              have hpw : p = w := Option.some.inj hw
              rw [← hpw] at hwn
              exact hqne hwn.symm
            rw [alookup_aerase_ne _ hne, hw]
            exact hx
        · show (aerase g.session_id_to_player sid).length =
            (aerase g.player_name_to_session_id p.name).length
          have l1 := aerase_length hp
          have l2 := aerase_length hs0
          omega

end Thavalon

namespace Thavalon

theorem cond_of_proj (g g2 : Game)
    (hs : g2.session_id_to_player.map (fun q => (q.1, q.2.name, q.2.session_id)) =
      g.session_id_to_player.map (fun q => (q.1, q.2.name, q.2.session_id)))
    {k : String} {w : Player}
    (hw : alookup g.session_id_to_player k = some w) :
    ∃ w2, alookup g2.session_id_to_player k = some w2 ∧
      w2.name = w.name ∧ w2.session_id = w.session_id := by
  have hproj := alookup_congr_of_map_proj (fun p => (p.name, p.session_id))
    g2.session_id_to_player g.session_id_to_player hs k
  rw [hw] at hproj
  cases h2 : alookup g2.session_id_to_player k with
  | none => rw [h2] at hproj; simp at hproj
  | some w2 =>
    rw [h2] at hproj
    have h3 : (w2.name, w2.session_id) = (w.name, w.session_id) := Option.some.inj hproj
    exact ⟨w2, rfl, (Prod.ext_iff.mp h3).1, (Prod.ext_iff.mp h3).2⟩

theorem voteInfoLoop_proj (m : Bool) :
    ∀ (ps : List (String × Player)) (g : Game),
    (∀ q ∈ ps, ∃ w, alookup g.session_id_to_player q.1 = some w ∧
      w.name = (q : String × Player).2.name ∧ w.session_id = q.2.session_id) →
    (voteInfoLoop m ps g).1.session_id_to_player.map (fun q => (q.1, q.2.name, q.2.session_id)) =
      g.session_id_to_player.map (fun q => (q.1, q.2.name, q.2.session_id)) ∧
    (voteInfoLoop m ps g).1.player_name_to_session_id = g.player_name_to_session_id := by
  intro ps
  induction ps with
  | nil =>
    intro g hc
    exact ⟨rfl, rfl⟩
  | cons a t ih =>
    obtain ⟨sid, p⟩ := a
    intro g hc
    obtain ⟨w, hw, hwn, hws⟩ := hc (sid, p) (List.mem_cons_self _ _)
    have hmap : (aset g.session_id_to_player sid { p with proposal_vote := none }).map
        (fun q => (q.1, q.2.name, q.2.session_id)) =
        g.session_id_to_player.map (fun q => (q.1, q.2.name, q.2.session_id)) :=
      aset_map_eq _ hw (by simp [hwn, hws])
    have hcond : ∀ (gx : Game),
        gx.session_id_to_player = aset g.session_id_to_player sid { p with proposal_vote := none } →
        ∀ q ∈ t, ∃ w2, alookup gx.session_id_to_player q.1 = some w2 ∧
          w2.name = (q : String × Player).2.name ∧ w2.session_id = q.2.session_id := by
      intro gx hgx q hq
      obtain ⟨w2, hw2, hw2n, hw2s⟩ := hc q (List.mem_cons_of_mem _ hq)
      rw [hgx]
      by_cases hqs : q.1 = sid
      · subst hqs
        rw [hw] at hw2
        have hww : w = w2 := Option.some.inj hw2
        refine ⟨{ p with proposal_vote := none }, alookup_aset_self _ _ _, ?_, ?_⟩
        · show p.name = _
          rw [← hwn, hww, hw2n]
        · show p.session_id = _
          rw [← hws, hww, hw2s]
      · rw [alookup_aset_ne _ _ hqs]
        exact ⟨w2, hw2, hw2n, hw2s⟩
    cases m with
    | true =>
      show (voteInfoLoop true ((sid, p) :: t) g).1.session_id_to_player.map _ = _ ∧ _
      simp only [voteInfoLoop, if_pos rfl]
      have h2 := ih { g with
        session_id_to_player := aset g.session_id_to_player sid { p with proposal_vote := none } }
        (hcond _ rfl)
      exact ⟨h2.1.trans hmap, h2.2⟩
    | false =>
      show (voteInfoLoop false ((sid, p) :: t) g).1.session_id_to_player.map _ = _ ∧ _
      simp only [voteInfoLoop, Bool.false_eq_true, if_neg Bool.false_ne_true]
      cases hv : p.proposal_vote with
      | none => exact ⟨rfl, rfl⟩
      | some v =>
        have h2 := ih { g with
          last_vote_info := aset g.last_vote_info p.name (if v then 1 else 0),
          session_id_to_player := aset g.session_id_to_player sid { p with proposal_vote := none } }
          (hcond _ rfl)
        exact ⟨h2.1.trans hmap, h2.2⟩

theorem clearMissionCards_projNS :
    ∀ (ps : List (String × Player)) (g : Game),
    (∀ q ∈ ps, ∃ w, alookup g.session_id_to_player q.1 = some w ∧
      w.name = (q : String × Player).2.name ∧ w.session_id = q.2.session_id) →
    (clearMissionCards ps g).session_id_to_player.map (fun q => (q.1, q.2.name, q.2.session_id)) =
      g.session_id_to_player.map (fun q => (q.1, q.2.name, q.2.session_id)) ∧
    (clearMissionCards ps g).player_name_to_session_id = g.player_name_to_session_id := by
  intro ps
  induction ps with
  | nil =>
    intro g hc
    exact ⟨rfl, rfl⟩
  | cons a t ih =>
    obtain ⟨sid, p⟩ := a
    intro g hc
    obtain ⟨w, hw, hwn, hws⟩ := hc (sid, p) (List.mem_cons_self _ _)
    have hmap : (aset g.session_id_to_player sid { p with mission_card := none }).map
        (fun q => (q.1, q.2.name, q.2.session_id)) =
        g.session_id_to_player.map (fun q => (q.1, q.2.name, q.2.session_id)) :=
      aset_map_eq _ hw (by simp [hwn, hws])
    have hcond : ∀ q ∈ t, ∃ w2,
        alookup (aset g.session_id_to_player sid { p with mission_card := none }) q.1 = some w2 ∧
        w2.name = (q : String × Player).2.name ∧ w2.session_id = q.2.session_id := by
      intro q hq
      obtain ⟨w2, hw2, hw2n, hw2s⟩ := hc q (List.mem_cons_of_mem _ hq)
      by_cases hqs : q.1 = sid
      · subst hqs
        rw [hw] at hw2
        have hww : w = w2 := Option.some.inj hw2
        refine ⟨{ p with mission_card := none }, alookup_aset_self _ _ _, ?_, ?_⟩
        · show p.name = _
          rw [← hwn, hww, hw2n]
        · show p.session_id = _
          rw [← hws, hww, hw2s]
      · rw [alookup_aset_ne _ _ hqs]
        exact ⟨w2, hw2, hw2n, hw2s⟩
    show (clearMissionCards ((sid, p) :: t) g).session_id_to_player.map _ = _ ∧ _
    simp only [clearMissionCards]
    have h2 := ih { g with
      session_id_to_player := aset g.session_id_to_player sid { p with mission_card := none } }
      hcond
    exact ⟨h2.1.trans hmap, h2.2⟩

theorem writeBackPlayers_proj :
    ∀ (ps : List Player) (g : Game),
    (∀ p ∈ ps, ∃ w, alookup g.session_id_to_player p.session_id = some w ∧
      w.name = p.name ∧ w.session_id = p.session_id) →
    (writeBackPlayers ps g).session_id_to_player.map (fun q => (q.1, q.2.name, q.2.session_id)) =
      g.session_id_to_player.map (fun q => (q.1, q.2.name, q.2.session_id)) ∧
    (writeBackPlayers ps g).player_name_to_session_id = g.player_name_to_session_id := by
  intro ps
  induction ps with
  | nil =>
    intro g hc
    exact ⟨rfl, rfl⟩
  | cons p t ih =>
    intro g hc
    obtain ⟨w, hw, hwn, hws⟩ := hc p (List.mem_cons_self _ _)
    have hmap : (aset g.session_id_to_player p.session_id p).map
        (fun q => (q.1, q.2.name, q.2.session_id)) =
        g.session_id_to_player.map (fun q => (q.1, q.2.name, q.2.session_id)) :=
      aset_map_eq _ hw (by simp [hwn, hws])
    have hcond : ∀ q ∈ t, ∃ w2,
        alookup (aset g.session_id_to_player p.session_id p) q.session_id = some w2 ∧
        w2.name = q.name ∧ w2.session_id = q.session_id := by
      intro q hq
      obtain ⟨w2, hw2, hw2n, hw2s⟩ := hc q (List.mem_cons_of_mem _ hq)
      by_cases hqs : q.session_id = p.session_id
      · rw [hqs, hw] at hw2
        have hww : w = w2 := Option.some.inj hw2
        refine ⟨p, by rw [hqs]; exact alookup_aset_self _ _ _, ?_, ?_⟩
        · rw [← hwn, hww, hw2n]
        · rw [← hws, hww, hw2s]
      · rw [alookup_aset_ne _ _ hqs]
        exact ⟨w2, hw2, hw2n, hw2s⟩
    show (writeBackPlayers (p :: t) g).session_id_to_player.map _ = _ ∧ _
    simp only [writeBackPlayers]
    have h2 := ih { g with
      session_id_to_player := aset g.session_id_to_player p.session_id p } hcond
    exact ⟨h2.1.trans hmap, h2.2⟩

end Thavalon

namespace Thavalon

theorem set_vote_resolve_maps (g : Game) (u d : Nat) (m : Bool)
    (hnd : (g.session_id_to_player.map Prod.fst).Nodup) :
    (g.set_vote_resolve u d m).1.session_id_to_player.map
        (fun q => (q.1, q.2.name, q.2.session_id)) =
      g.session_id_to_player.map (fun q => (q.1, q.2.name, q.2.session_id)) ∧
    (g.set_vote_resolve u d m).1.player_name_to_session_id = g.player_name_to_session_id := by
  have hcond : ∀ q ∈ g.session_id_to_player,
      ∃ w, alookup g.session_id_to_player q.1 = some w ∧
        w.name = (q : String × Player).2.name ∧ w.session_id = q.2.session_id := by
    intro q hq
    obtain ⟨a, b⟩ := q
    exact ⟨b, alookup_self_of_nodup hnd hq, rfl, rfl⟩
  have hloop := voteInfoLoop_proj m g.session_id_to_player g hcond
  unfold Game.set_vote_resolve
  dsimp only
  split
  · rename_i g2 e heq
    rw [heq] at hloop
    exact hloop
  · rename_i g2 u2 heq
    rw [heq] at hloop
    split_ifs with h1 h2
    · split
      · rename_i g4 e2 heq2
        have h5 := send_mission_maps2 heq2
        refine ⟨?_, ?_⟩
        · rw [congrArg (List.map (fun q => (q.1, q.2.name, q.2.session_id))) h5.1]
          exact hloop.1
        · rw [h5.2]
          exact hloop.2
      · rename_i g4 mi heq2
        have h5 := send_mission_maps2 heq2
        refine ⟨?_, ?_⟩
        · rw [congrArg (List.map (fun q => (q.1, q.2.name, q.2.session_id))) h5.1]
          exact hloop.1
        · rw [h5.2]
          exact hloop.2
    · split
      · rename_i g4 e2 heq2
        have h5 := send_mission_maps2 heq2
        refine ⟨?_, ?_⟩
        · rw [congrArg (List.map (fun q => (q.1, q.2.name, q.2.session_id))) h5.1]
          exact hloop.1
        · rw [h5.2]
          exact hloop.2
      · rename_i g4 mi heq2
        have h5 := send_mission_maps2 heq2
        refine ⟨?_, ?_⟩
        · rw [congrArg (List.map (fun q => (q.1, q.2.name, q.2.session_id))) h5.1]
          exact hloop.1
        · rw [h5.2]
          exact hloop.2
    · split
      · exact hloop
      · exact hloop

theorem set_vote_maps (g : Game) (sid : String) (v : Bool)
    (hnd : (g.session_id_to_player.map Prod.fst).Nodup) :
    (g.set_vote sid v).1.session_id_to_player.map
        (fun q => (q.1, q.2.name, q.2.session_id)) =
      g.session_id_to_player.map (fun q => (q.1, q.2.name, q.2.session_id)) ∧
    (g.set_vote sid v).1.player_name_to_session_id = g.player_name_to_session_id := by
  unfold Game.set_vote
  dsimp only
  split
  · exact ⟨rfl, rfl⟩
  · split
    · exact ⟨rfl, rfl⟩
    · split
      · exact ⟨rfl, rfl⟩
      · rename_i player hlk
        split
        · exact ⟨rfl, rfl⟩
        · have hmap1 : (aset g.session_id_to_player sid
              { player with proposal_vote := some v }).map
              (fun q => (q.1, q.2.name, q.2.session_id)) =
              g.session_id_to_player.map (fun q => (q.1, q.2.name, q.2.session_id)) :=
            aset_map_eq _ hlk (by simp)
          have hnd1 : ((aset g.session_id_to_player sid
              { player with proposal_vote := some v }).map Prod.fst).Nodup := by
            rw [aset_keys_of_mem _ hlk]
            exact hnd
          split_ifs with h1
          · exact ⟨hmap1, rfl⟩
          · split
            · exact ⟨(set_vote_resolve_maps _ _ _ _ hnd1).1.trans hmap1,
                (set_vote_resolve_maps _ _ _ _ hnd1).2⟩
            · rename_i msid hmaeve
              split
              · exact ⟨hmap1, rfl⟩
              · rename_i mp hmp
                split
                · exact ⟨hmap1, rfl⟩
                · rename_i mr hmr
                  split_ifs with h3
                  · have hmap2 : (aset (aset g.session_id_to_player sid
                        { player with proposal_vote := some v }) msid
                        { mp with role := some { mr with used_ability := false } }).map
                        (fun q => (q.1, q.2.name, q.2.session_id)) =
                        (aset g.session_id_to_player sid
                          { player with proposal_vote := some v }).map
                        (fun q => (q.1, q.2.name, q.2.session_id)) :=
                      aset_map_eq _ hmp (by simp)
                    have hnd2 : ((aset (aset g.session_id_to_player sid
                        { player with proposal_vote := some v }) msid
                        { mp with role := some { mr with used_ability := false } }).map
                        Prod.fst).Nodup := by
                      rw [aset_keys_of_mem _ hmp]
                      exact hnd1
                    exact ⟨((set_vote_resolve_maps _ _ _ _ hnd2).1.trans hmap2).trans hmap1,
                      (set_vote_resolve_maps _ _ _ _ hnd2).2⟩
                  · exact ⟨(set_vote_resolve_maps _ _ _ _ hnd1).1.trans hmap1,
                      (set_vote_resolve_maps _ _ _ _ hnd1).2⟩

theorem resolve_mission_maps (g : Game)
    (sh : List (Option MissionCard) → List (Option MissionCard)) :
    (g.resolve_mission sh).1.session_id_to_player.map
        (fun q => (q.1, q.2.name, q.2.session_id)) =
      g.session_id_to_player.map (fun q => (q.1, q.2.name, q.2.session_id)) ∧
    (g.resolve_mission sh).1.player_name_to_session_id = g.player_name_to_session_id := by
  unfold Game.resolve_mission
  dsimp only
  split
  · exact ⟨rfl, rfl⟩
  · rename_i pom hpom
    split
    · exact ⟨rfl, rfl⟩
    · rename_i cards hcards
      have hsound := lookupMissionPlayers_sound g g.current_mission pom hpom
      have hclear := clearMissionCards_projNS pom { g with
        mission_players := nset g.mission_players g.mission_num g.current_mission,
        mission_num_to_result := nset g.mission_num_to_result g.mission_num
          (missionResultOf g.get_num_players g.mission_num
            ((cards.count .FAIL)) ((cards.count .REVERSE))),
        mission_cards := nset g.mission_cards g.mission_num cards,
        mission_num := g.mission_num + 1 }
        (by
          intro q hq
          exact ⟨q.2, hsound q hq, rfl, rfl⟩)
      split_ifs with h1 h2
      · exact ⟨hclear.1, hclear.2⟩
      · exact ⟨hclear.1, hclear.2⟩
      · split
        · exact ⟨hclear.1, hclear.2⟩
        · exact ⟨hclear.1, hclear.2⟩

theorem play_mission_card_maps (g : Game)
    (sh : List (Option MissionCard) → List (Option MissionCard))
    (sid : String) (card : MissionCard) :
    (g.play_mission_card sh sid card).1.session_id_to_player.map
        (fun q => (q.1, q.2.name, q.2.session_id)) =
      g.session_id_to_player.map (fun q => (q.1, q.2.name, q.2.session_id)) ∧
    (g.play_mission_card sh sid card).1.player_name_to_session_id =
      g.player_name_to_session_id := by
  unfold Game.play_mission_card
  dsimp only
  split
  · exact ⟨rfl, rfl⟩
  · split
    · exact ⟨rfl, rfl⟩
    · split
      · exact ⟨rfl, rfl⟩
      · rename_i player hlk
        split
        · exact ⟨rfl, rfl⟩
        · split
          · exact ⟨rfl, rfl⟩
          · split
            · exact ⟨rfl, rfl⟩
            · rename_i role hrole
              split
              · exact ⟨rfl, rfl⟩
              · rename_i valid hvalid
                split_ifs with h1 h2
                · exact ⟨aset_map_eq _ hlk (by simp), rfl⟩
                · have h3 := resolve_mission_maps (g.place_mission_card sid player card) sh
                  refine ⟨h3.1.trans ?_, h3.2⟩
                  exact aset_map_eq _ hlk (by simp)
                · exact ⟨rfl, rfl⟩

end Thavalon

namespace Thavalon

theorem constructEvilRole_error (c : RoleClass) (b : Bool) :
    ∃ e, constructEvilRole c b = Except.error e := by
  cases c <;> cases b <;> exact ⟨_, rfl⟩

theorem assignGoodRoles_length : ∀ (ps : List Player) (cs : List RoleClass),
    (assignGoodRoles ps cs).length = ps.length := by
  intro ps
  induction ps with
  | nil =>
    intro cs
    cases cs <;> rfl
  | cons p pt ih =>
    intro cs
    cases cs with
    | nil => rfl
    | cons c ct => simp [assignGoodRoles, ih]

theorem assignGoodRoles_namesid :
    ∀ (ps : List Player) (cs : List RoleClass), ∀ q ∈ assignGoodRoles ps cs,
    ∃ p ∈ ps, q.name = p.name ∧ q.session_id = p.session_id := by
  intro ps
  induction ps with
  | nil =>
    intro cs q hq
    cases cs <;> simp [assignGoodRoles] at hq
  | cons p pt ih =>
    intro cs q hq
    cases cs with
    | nil => exact ⟨q, hq, rfl, rfl⟩
    | cons c ct =>
      simp only [assignGoodRoles, List.mem_cons] at hq
      rcases hq with hq | hq
      · subst hq
        exact ⟨p, List.mem_cons_self _ _, rfl, rfl⟩
      · obtain ⟨p0, hp0, hn, hs⟩ := ih ct q hq
        exact ⟨p0, List.mem_cons_of_mem _ hp0, hn, hs⟩

theorem goodCount_lt {n k : Nat} (h2 : 2 ≤ n) (h10 : n ≤ 10)
    (h : gameSizeToGoodCount n = some k) : k < n := by
  interval_cases n <;> simp [gameSizeToGoodCount] at h <;> omega

theorem evilAssignLoop_out (evil_roles : List RoleClass) (av : Nat)
    (ps : List Player) (idxs : List Nat) (g : Game)
    (res : (List Player × Game) × Except String Unit)
    (h : evilAssignLoop evil_roles av ps idxs g = res) :
    (res.1.2.session_id_to_player = g.session_id_to_player ∧
      res.1.2.player_name_to_session_id = g.player_name_to_session_id) ∧
    (∀ q ∈ res.1.1, ∃ p ∈ ps, q.name = p.name ∧ q.session_id = p.session_id) ∧
    (ps ≠ [] → idxs ≠ [] → ∃ e, res.2 = .error e) := by
  subst h
  cases ps with
  | nil =>
    cases idxs with
    | nil =>
      refine ⟨⟨rfl, rfl⟩, ?_, fun hh _ => absurd rfl hh⟩
      intro q hq
      simp [evilAssignLoop] at hq
    | cons i it =>
      refine ⟨⟨rfl, rfl⟩, ?_, fun hh _ => absurd rfl hh⟩
      intro q hq
      simp [evilAssignLoop] at hq
  | cons p pt =>
    cases idxs with
    | nil =>
      exact ⟨⟨rfl, rfl⟩, fun q hq => ⟨q, hq, rfl, rfl⟩, fun _ hh => absurd rfl hh⟩
    | cons i it =>
      cases hgi : evil_roles.get? i with
      | none =>
        refine ⟨⟨?_, ?_⟩, ?_, fun _ _ => ?_⟩
        · simp only [evilAssignLoop, hgi]
        · simp only [evilAssignLoop, hgi]
        · intro q hq
          simp only [evilAssignLoop, hgi] at hq
          exact ⟨q, hq, rfl, rfl⟩
        · exact ⟨"IndexError: list index out of range",
            by simp only [evilAssignLoop, hgi]⟩
      | some c =>
        obtain ⟨e0, he0⟩ := constructEvilRole_error c (decide (i = av))
        refine ⟨⟨?_, ?_⟩, ?_, fun _ _ => ?_⟩
        · simp only [evilAssignLoop, hgi, he0]
          split_ifs <;> rfl
        · simp only [evilAssignLoop, hgi, he0]
          split_ifs <;> rfl
        · intro q hq
          simp only [evilAssignLoop, hgi, he0] at hq
          exact ⟨q, hq, rfl, rfl⟩
        · exact ⟨e0, by simp only [evilAssignLoop, hgi, he0]⟩

end Thavalon

namespace Thavalon

theorem start_game_maps (g : Game) (sh1 sh2 : List Player → List Player)
    (gri eri : List Nat) (ap : Nat)
    (hsh1 : ∀ l, List.Perm (sh1 l) l)
    (hev : eri ≠ [])
    (hInv : Inv g) :
    (g.start_game sh1 sh2 gri eri ap).1.session_id_to_player.map
        (fun q => (q.1, q.2.name, q.2.session_id)) =
      g.session_id_to_player.map (fun q => (q.1, q.2.name, q.2.session_id)) ∧
    (g.start_game sh1 sh2 gri eri ap).1.player_name_to_session_id =
      g.player_name_to_session_id := by
  have hnd := hInv.1
  have hkey := hInv.2.2.1
  have hcondg : ∀ p ∈ sh1 (List.map Prod.snd g.session_id_to_player),
      ∃ w, alookup g.session_id_to_player p.session_id = some w ∧
        w.name = p.name ∧ w.session_id = p.session_id := by
    intro p hp
    obtain ⟨q, hqmem, hqp⟩ := List.mem_map.mp ((hsh1 _).mem_iff.mp hp)
    obtain ⟨a, b⟩ := q
    simp only at hqp
    subst hqp
    have hk : a = b.session_id := (hkey (a, b) hqmem).symm
    refine ⟨b, ?_, rfl, rfl⟩
    rw [← hk]
    exact alookup_self_of_nodup hnd hqmem
  unfold Game.start_game
  dsimp only
  split_ifs with h1 h2
  · exact ⟨rfl, rfl⟩
  · exact ⟨rfl, rfl⟩
  · split
    · exact ⟨rfl, rfl⟩
    · rename_i ntl hntl
      split
      · exact ⟨rfl, rfl⟩
      · rename_i num_good hng
        split
        · exact ⟨rfl, rfl⟩
        · rename_i good_roles hgr
          split
          · exact ⟨rfl, rfl⟩
          · rename_i evil_roles her
            split
            · exact ⟨rfl, rfl⟩
            · rename_i av hav
              split
              · exact ⟨rfl, rfl⟩
              · rename_i grig hgrig
                have hp1 : ∀ q ∈ assignGoodRoles
                      (List.take num_good (sh1 (List.map Prod.snd g.session_id_to_player))) grig
                      ++ List.drop num_good (sh1 (List.map Prod.snd g.session_id_to_player)),
                    ∃ w, alookup g.session_id_to_player q.session_id = some w ∧
                      w.name = q.name ∧ w.session_id = q.session_id := by
                  intro q hq
                  rcases List.mem_append.mp hq with hm | hm
                  · obtain ⟨p0, hp0, hn0, hs0⟩ := assignGoodRoles_namesid _ _ q hm
                    obtain ⟨w, hw, hwn, hws⟩ := hcondg p0 (List.take_subset _ _ hp0)
                    refine ⟨w, ?_, ?_, ?_⟩
                    · rw [hs0]
                      exact hw
                    · rw [hwn, hn0]
                    · rw [hws, hs0]
                  · exact hcondg q (List.drop_subset _ _ hm)
                have hg4 := writeBackPlayers_proj
                  (List.take num_good (assignGoodRoles
                    (List.take num_good (sh1 (List.map Prod.snd g.session_id_to_player))) grig
                    ++ List.drop num_good (sh1 (List.map Prod.snd g.session_id_to_player))))
                  { g with
                    proposal_order_players :=
                      sh2 (sh1 (List.map Prod.snd g.session_id_to_player)),
                    proposal_order_names :=
                      List.map Player.name (sh2 (sh1 (List.map Prod.snd g.session_id_to_player))),
                    proposer_index := g.get_num_players - 2,
                    proposer_id := ntl.session_id,
                    max_num_proposers := g.get_num_players - num_good + 1 }
                  (by
                    intro q hq
                    exact hp1 q (List.take_subset _ _ hq))
                have hproj4 : (writeBackPlayers
                    (List.take num_good (assignGoodRoles
                      (List.take num_good (sh1 (List.map Prod.snd g.session_id_to_player))) grig
                      ++ List.drop num_good (sh1 (List.map Prod.snd g.session_id_to_player))))
                    { g with
                      proposal_order_players :=
                        sh2 (sh1 (List.map Prod.snd g.session_id_to_player)),
                      proposal_order_names :=
                        List.map Player.name (sh2 (sh1 (List.map Prod.snd g.session_id_to_player))),
                      proposer_index := g.get_num_players - 2,
                      proposer_id := ntl.session_id,
                      max_num_proposers := g.get_num_players - num_good + 1 }).session_id_to_player.map
                      (fun q => (q.1, q.2.name, q.2.session_id)) =
                    g.session_id_to_player.map (fun q => (q.1, q.2.name, q.2.session_id)) := hg4.1
                have hn4 : (writeBackPlayers
                    (List.take num_good (assignGoodRoles
                      (List.take num_good (sh1 (List.map Prod.snd g.session_id_to_player))) grig
                      ++ List.drop num_good (sh1 (List.map Prod.snd g.session_id_to_player))))
                    { g with
                      proposal_order_players :=
                        sh2 (sh1 (List.map Prod.snd g.session_id_to_player)),
                      proposal_order_names :=
                        List.map Player.name (sh2 (sh1 (List.map Prod.snd g.session_id_to_player))),
                      proposer_index := g.get_num_players - 2,
                      proposer_id := ntl.session_id,
                      max_num_proposers := g.get_num_players - num_good + 1 }).player_name_to_session_id =
                    g.player_name_to_session_id := hg4.2
                have hlsh : (sh1 (List.map Prod.snd g.session_id_to_player)).length =
                    g.get_num_players := by
                  rw [(hsh1 _).length_eq, List.length_map]
                  rfl
                have hngN : num_good < g.get_num_players :=
                  goodCount_lt (by omega) (by omega) hng
                have hlen1 : (assignGoodRoles
                    (List.take num_good (sh1 (List.map Prod.snd g.session_id_to_player))) grig
                    ++ List.drop num_good (sh1 (List.map Prod.snd g.session_id_to_player))).length =
                    g.get_num_players := by
                  rw [List.length_append, assignGoodRoles_length, List.length_take,
                    List.length_drop, hlsh]
                  omega
                have hdropne : List.drop num_good (assignGoodRoles
                    (List.take num_good (sh1 (List.map Prod.snd g.session_id_to_player))) grig
                    ++ List.drop num_good (sh1 (List.map Prod.snd g.session_id_to_player))) ≠ [] := by
                  intro hbad
                  have hl := congrArg List.length hbad
                  rw [List.length_drop, hlen1] at hl
                  simp only [List.length_nil] at hl
                  omega
                obtain ⟨i, it, rfl⟩ : ∃ i it, eri = i :: it := by
                  cases eri with
                  | nil => exact absurd rfl hev
                  | cons i it => exact ⟨i, it, rfl⟩
                split
                · rename_i evilPs g5 e heq
                  have hout := evilAssignLoop_out _ _ _ _ _ _ heq
                  have hcond5 : ∀ q ∈ evilPs,
                      ∃ w, alookup g5.session_id_to_player q.session_id = some w ∧
                        w.name = q.name ∧ w.session_id = q.session_id := by
                    intro q hq
                    obtain ⟨p0, hp0, hn0, hs0⟩ := hout.2.1 q hq
                    obtain ⟨w, hw, hwn, hws⟩ := hp1 p0 (List.drop_subset _ _ hp0)
                    obtain ⟨w2, hw2, hw2n, hw2s⟩ := cond_of_proj g _ hproj4 hw
                    refine ⟨w2, ?_, ?_, ?_⟩
                    · rw [hout.1.1, hs0]
                      exact hw2
                    · rw [hw2n, hwn, hn0]
                    · rw [hw2s, hws, hs0]
                  have hwb := writeBackPlayers_proj evilPs g5 hcond5
                  refine ⟨hwb.1.trans ?_, hwb.2.trans ?_⟩
                  · rw [hout.1.1]
                    exact hproj4
                  · rw [hout.1.2]
                    exact hn4
                · rename_i evilPs g5 u heq
                  have hout := evilAssignLoop_out _ _ _ _ _ _ heq
                  obtain ⟨e, he⟩ := hout.2.2 hdropne (by simp)
                  simp at he

end Thavalon

namespace Thavalon

/-- C10: the two player-registration maps are kept mutually inverse (`Inv`)
by every `Game` operation: `add_player`, `remove_player`, `start_game` (for
any shuffle that permutes its input and any non-empty evil index sample,
covering every choice `random.sample` can return), `set_proposal`,
`set_vote`, `play_mission_card` and `use_ability`, whether the call
succeeds or is rejected. -/
theorem C10_player_map_inverse (g : Game) (hInv : Inv g) :
    (∀ sid name, Inv (g.add_player sid name).1) ∧
    (∀ sid, Inv (g.remove_player sid).1) ∧
    (∀ sh1 sh2 gri eri ap, (∀ l, List.Perm (sh1 l) l) → eri ≠ [] →
      Inv (g.start_game sh1 sh2 gri eri ap).1) ∧
    (∀ ns, Inv (g.set_proposal ns).1) ∧
    (∀ sid v, Inv (g.set_vote sid v).1) ∧
    (∀ sh sid c, Inv (g.play_mission_card sh sid c).1) ∧
    (∀ sid, Inv (g.use_ability sid).1) := by
  refine ⟨fun sid name => add_player_Inv g sid name hInv,
    fun sid => remove_player_Inv g sid hInv,
    fun sh1 sh2 gri eri ap hperm hne => ?_,
    fun ns => ?_, fun sid v => ?_, fun sh sid c => ?_, fun sid => ?_⟩
  · obtain ⟨hs, hn⟩ := start_game_maps g sh1 sh2 gri eri ap hperm hne hInv
    exact Inv_of_proj g _ hn hs hInv
  · obtain ⟨hs, hn⟩ := set_proposal_maps g ns
    exact Inv_of_proj g _ hn (by rw [hs]) hInv
  · obtain ⟨hs, hn⟩ := set_vote_maps g sid v hInv.1
    exact Inv_of_proj g _ hn hs hInv
  · obtain ⟨hs, hn⟩ := play_mission_card_maps g sh sid c
    exact Inv_of_proj g _ hn hs hInv
  · rw [use_ability_fst]
    exact hInv

/-- Witness for C10 at a concrete two-player lobby: the invariant holds
beforehand and is preserved both by a `start_game` call (identity
shuffles, evil sample `[0]`) and by an `add_player` call. -/
theorem C10_player_map_inverse_witness :
    Inv gC10 ∧ Inv ((gC10.start_game id id [0] [0] 0).1) ∧
    Inv ((gC10.add_player "3" "p3").1) :=
  ⟨by unfold Inv; decide,
   (C10_player_map_inverse gC10 (by unfold Inv; decide)).2.2.1 id id [0] [0] 0
     (fun l => List.Perm.refl l) (by decide),
   (C10_player_map_inverse gC10 (by unfold Inv; decide)).1 "3" "p3"⟩

end Thavalon
